import Mathlib

/-!
Verification development for the Genos Boston-subway assistant.

The definitions below are a shallow embedding of the repository's code:

* `src/tools/mbta.py` — the Transit Data Client (`get_routes`, `get_stops`,
  `search_stops`, `get_predictions`, `get_next_train`, `get_both_directions`,
  `get_alerts`).  Every operation performs one HTTP GET and then computes its
  result purely from the response; we model the response as an explicit input
  (`status` plus parsed JSON payload) and each operation as a pure function of
  it.  Python dicts are modelled as association lists `List (String × JVal)`
  so that key-presence checks (`"error" in result`) are literal.  Timestamps
  (`datetime` values, parsed from ISO strings) are modelled as whole seconds
  (`Nat`); Python's `round` on `seconds/60` is half-to-even, embedded exactly.
  Python's stable ascending `list.sort` is embedded as a stable insertion
  sort.

* `src/agent.py` — the preference store (`set_preference`, `add_fact`), the
  tool registry (`Agent._call_tool`) and the conversation loop (`Agent.chat`).
  Disk writes (`_save_memory`) are modelled as a boolean `saved` flag; a tool
  function that may raise is modelled as returning `Except String Dict`; the
  model client is replaced by a script (list) of model responses, and an
  uncaught Python exception in the loop is modelled as `Except.error`.
-/

/-! ## Basic string helpers (Python `str.lower`, `str.strip`, `in`) -/

/-- Python `str.lower()` : lowercase every character (ASCII suffices for the
strings in this repository). -/
def pyLower (s : String) : String := String.mk (s.data.map Char.toLower)

/-- Characters removed by Python `str.strip()` (ASCII whitespace). -/
def isPyWhitespace (c : Char) : Bool :=
  c == ' ' || c == '\t' || c == '\n' || c == '\r' || c == '\x0b' || c == '\x0c'

/-- Python `str.strip()` on a character list: drop whitespace at both ends. -/
def pyStripList (l : List Char) : List Char :=
  ((l.dropWhile isPyWhitespace).reverse.dropWhile isPyWhitespace).reverse

/-- Python `str.strip()`. -/
def pyStrip (s : String) : String := String.mk (pyStripList s.data)

/-- Test whether `needle` is a prefix of `hay` (character lists). -/
def startsWithList : List Char → List Char → Bool
  | [], _ => true
  | _ :: _, [] => false
  | a :: as, b :: bs => a == b && startsWithList as bs

/-- Test whether `needle` occurs contiguously inside `hay` (character lists). -/
def containsList (needle : List Char) : List Char → Bool
  | [] => startsWithList needle []
  | h :: t => startsWithList needle (h :: t) || containsList needle t

/-- Python `needle in hay` on strings: contiguous-substring test. -/
def pyIn (needle hay : String) : Bool := containsList needle.data hay.data

/-! ## Stable sort (Python `list.sort`) -/

/-- Insert `x` after every already-placed element `y` with `le y x`; this is
the insertion step of a stable ascending sort. -/
def insertStable (le : α → α → Bool) (x : α) : List α → List α
  | [] => [x]
  | y :: ys => if le y x then y :: insertStable le x ys else x :: y :: ys

/-- Stable ascending sort by `le`, equal to Python's stable `list.sort` when
`le` is the `≤` of the sort key. -/
def stableSort (le : α → α → Bool) (l : List α) : List α :=
  l.foldl (fun acc x => insertStable le x acc) []

/-! ## Python `round` -/

/-- Python `round(s / 60)` for a non-negative whole number of seconds `s`:
round half to even (banker's rounding), as CPython does. -/
def pyRound60 (s : Nat) : Nat :=
  let q := s / 60
  let r := s % 60
  if r < 30 then q else if 30 < r then q + 1 else if q % 2 = 0 then q else q + 1

/-! ## Data model (`src/tools/mbta.py`) -/

/-- Normalized prediction record built by `get_predictions`
(`src/tools/mbta.py` lines 310–316).  The `time` field holds the computed
arrival instant in seconds (the source formats it as an `"%H:%M:%S"` string;
the formatting is presentation only). -/
structure PredictionRecord where
  route : String
  direction : String
  minutes : Nat
  time : Nat
  status : String
deriving DecidableEq, Repr

/-- Normalized stop record (`{"id": ..., "name": ...}`). -/
structure StopRecord where
  id : String
  name : String
deriving DecidableEq, Repr

/-- Normalized route summary built by `get_routes`. -/
structure RouteSummary where
  id : String
  name : String
  color : String
  directions : List (Nat × String)
deriving DecidableEq, Repr

/-- Normalized alert record built by `get_alerts`. -/
structure AlertRecord where
  header : String
  description : String
  effect : String
  severity : Nat
  affected_routes : List String
  updated_at : String
deriving DecidableEq, Repr

/-- Per-direction entry of `get_both_directions` (`{"minutes": ..,
"time": ..}`). -/
structure DirEntry where
  minutes : Nat
  time : Nat
deriving DecidableEq, Repr

/-- JSON-ish value stored under a key of a returned dict. -/
inductive JVal where
  | s (v : String)
  | n (v : Nat)
  | b (v : Bool)
  | null
  | preds (l : List PredictionRecord)
  | stops (l : List StopRecord)
  | routes (l : List RouteSummary)
  | alerts (l : List AlertRecord)
  | dirs (l : List (String × DirEntry))
  | dirTable (l : List (Nat × String))
deriving DecidableEq, Repr

/-- A Python dict result, as an ordered association list with distinct keys. -/
abbrev Dict := List (String × JVal)

/-- Python `k in result` on a dict. -/
def hasKey (k : String) (d : Dict) : Bool := d.any (fun p => p.1 == k)

/-- Python `result[k]` on a dict (as an `Option`). -/
def getKey (k : String) (d : Dict) : Option JVal :=
  (d.find? (fun p => p.1 == k)).map (fun p => p.2)

/-- Embed an optional string the way the source embeds a possibly-`None`
argument into a result dict. -/
def optJ : Option String → JVal
  | none => JVal.null
  | some s => JVal.s s

/-! ## `ROUTE_DIRECTIONS` (`src/tools/mbta.py` lines 24–32) -/

/-- Hardcoded direction-name table keyed by route id. -/
def ROUTE_DIRECTIONS : List (String × List (Nat × String)) :=
  [("Red", [(0, "Ashmont/Braintree"), (1, "Alewife")]),
   ("Orange", [(0, "Forest Hills"), (1, "Oak Grove")]),
   ("Blue", [(0, "Bowdoin"), (1, "Wonderland")]),
   ("Green-B", [(0, "Park Street"), (1, "Boston College")]),
   ("Green-C", [(0, "Park Street"), (1, "Cleveland Circle")]),
   ("Green-D", [(0, "Union Square"), (1, "Riverside")]),
   ("Green-E", [(0, "Medford/Tufts"), (1, "Heath Street")])]

/-- Python `ROUTE_DIRECTIONS.get(route, {})`. -/
def routeDirTable (route : String) : List (Nat × String) :=
  ((ROUTE_DIRECTIONS.find? (fun p => p.1 == route)).map (fun p => p.2)).getD []

/-- Python `ROUTE_DIRECTIONS.get(route, {}).get(direction_id,
f"方向{direction_id}")`. -/
def directionName (route : String) (direction_id : Nat) : String :=
  (((routeDirTable route).find? (fun p => p.1 == direction_id)).map
    (fun p => p.2)).getD ("方向" ++ toString direction_id)

/-! ## `get_predictions` (`src/tools/mbta.py` lines 241–334) -/

/-- Raw upstream prediction resource: the fields of `attributes` and
`relationships` that `get_predictions` reads.  `arrival_time` and
`departure_time` are `none` when absent or null; a present time is its
instant in whole seconds.  `route_data` is `pred["relationships"]["route"]
["data"]`, reduced to the route id (`none` when the JSON value is null). -/
structure RawPrediction where
  arrival_time : Option Nat
  departure_time : Option Nat
  direction_id : Nat
  route_data : Option String
  status : String
deriving DecidableEq, Repr

/-- Upstream response to the `/predictions` request: HTTP status plus the
parsed `data` array. -/
structure PredictionsResponse where
  status : Nat
  data : List RawPrediction
deriving DecidableEq, Repr

/-- Python `attrs.get("arrival_time") or attrs.get("departure_time")`:
the arrival time, falling back to the departure time when the former is
absent. -/
def effTime (raw : RawPrediction) : Option Nat :=
  match raw.arrival_time with
  | some t => some t
  | none => raw.departure_time

/-- Build one normalized prediction record from a raw record whose effective
time is `t` (source lines 299–316). -/
def mkPrediction (now t : Nat) (raw : RawPrediction) : PredictionRecord :=
  let route_name := raw.route_data.getD "未知"
  { route := route_name
    direction := directionName route_name raw.direction_id
    minutes := pyRound60 (t - now)
    time := t
    status := raw.status }

/-- The per-record loop of `get_predictions`: skip a record with neither
arrival nor departure time, skip a record whose effective time is before
`now`, otherwise normalize it. -/
def normalizePreds (now : Nat) (data : List RawPrediction) : List PredictionRecord :=
  data.filterMap (fun raw =>
    match effTime raw with
    | none => none
    | some t => if t < now then none else some (mkPrediction now t raw))

/-- Comparison used by `predictions.sort(key=lambda x: x["minutes"])`. -/
def predLE (a b : PredictionRecord) : Bool := decide (a.minutes ≤ b.minutes)

/-- Optional direction filter (source lines 322–327): keep a record when the
lowercased requested direction occurs in the lowercased direction name.
`none` models the falsy `direction` argument (absent or empty). -/
def dirFilter : Option String → List PredictionRecord → List PredictionRecord
  | none, l => l
  | some d, l => l.filter (fun p => pyIn (pyLower d) (pyLower p.direction))

/-- Normalize, sort and filter the raw predictions, before the final
`[:10]` truncation. -/
def processedPreds (direction : Option String) (now : Nat)
    (data : List RawPrediction) : List PredictionRecord :=
  dirFilter direction (stableSort predLE (normalizePreds now data))

/-- Diagnostic message of the empty-`data` branch of `get_predictions`. -/
def noPredictionsMsg : String := "当前没有预测数据，可能不在运营时间"

/-- The `get_predictions(stop_id, route_id, direction)` operation as a pure
function of the upstream response and the query instant `now`.  The
`route_id` argument only changes the HTTP query string, so here it is only
echoed into the result. -/
def get_predictions (stop_id : String) (route_id direction : Option String)
    (now : Nat) (resp : PredictionsResponse) : Dict :=
  if resp.status ≠ 200 then
    [("error", JVal.s ("API 错误: " ++ toString resp.status)),
     ("stop_id", JVal.s stop_id)]
  else if resp.data.isEmpty then
    [("stop_id", JVal.s stop_id),
     ("predictions", JVal.preds []),
     ("message", JVal.s noPredictionsMsg)]
  else
    [("stop_id", JVal.s stop_id),
     ("route_filter", optJ route_id),
     ("direction_filter", optJ direction),
     ("predictions", JVal.preds ((processedPreds direction now resp.data).take 10))]

/-- Python `result["predictions"]` on a dict produced by `get_predictions`
(defaulting to `[]` on the unreachable key-miss). -/
def predsOf (d : Dict) : List PredictionRecord :=
  match getKey "predictions" d with
  | some (JVal.preds l) => l
  | _ => []

/-! ## `get_stops` and `search_stops` (`src/tools/mbta.py` lines 158–238) -/

/-- Upstream response to a `/stops` request: HTTP status plus the parsed
`data` array, each resource reduced to the `id` and `attributes.name` fields
the source reads. -/
structure StopsResponse where
  status : Nat
  data : List StopRecord
deriving DecidableEq, Repr

/-- Deduplication loop of `get_stops` (lines 180–190): keep a stop whose name
has not been seen, first occurrence wins.  `seen` is the `seen` set. -/
def dedupStops : List StopRecord → List String → List StopRecord
  | [], _ => []
  | s :: rest, seen =>
    if s.name ∈ seen then dedupStops rest seen
    else { id := s.id, name := s.name } :: dedupStops rest (s.name :: seen)

/-- The `get_stops(route_id)` operation as a pure function of the upstream
response. -/
def get_stops (route_id : String) (resp : StopsResponse) : Dict :=
  if resp.status ≠ 200 then
    [("error", JVal.s ("API 错误: " ++ toString resp.status))]
  else
    [("route", JVal.s route_id),
     ("directions", JVal.dirTable (routeDirTable route_id)),
     ("stops", JVal.stops (dedupStops resp.data []))]

/-- Combined deduplication and match loop of `search_stops` (lines 222–232):
a stop is kept when its name is unseen and the lowercased stripped query
occurs in its lowercased name; only kept names enter `seen`. -/
def searchFilter (query_lower : String) : List StopRecord → List String → List StopRecord
  | [], _ => []
  | s :: rest, seen =>
    if s.name ∉ seen ∧ pyIn query_lower (pyLower s.name) = true then
      { id := s.id, name := s.name } :: searchFilter query_lower rest (s.name :: seen)
    else searchFilter query_lower rest seen

/-- The `search_stops(query)` operation as a pure function of the upstream
response.  The source computes `query_lower = query.lower().strip()`. -/
def search_stops (query : String) (resp : StopsResponse) : Dict :=
  if resp.status ≠ 200 then
    [("error", JVal.s ("API 错误: " ++ toString resp.status))]
  else
    let matched := searchFilter (pyStrip (pyLower query)) resp.data []
    [("query", JVal.s query),
     ("count", JVal.n matched.length),
     ("results", JVal.stops matched)]

/-! ## `get_routes` (`src/tools/mbta.py` lines 121–155) -/

/-- Raw upstream route resource: `id`, `attributes.long_name`,
`attributes.color`. -/
structure RawRoute where
  id : String
  long_name : String
  color : String
deriving DecidableEq, Repr

/-- Upstream response to the `/routes` request. -/
structure RoutesResponse where
  status : Nat
  data : List RawRoute
deriving DecidableEq, Repr

/-- The `get_routes(route_type)` operation as a pure function of the upstream
response (`route_type` only changes the HTTP query string). -/
def get_routes (route_type : String) (resp : RoutesResponse) : Dict :=
  if resp.status ≠ 200 then
    [("error", JVal.s ("API 错误: " ++ toString resp.status))]
  else
    [("routes", JVal.routes (resp.data.map (fun r =>
      { id := r.id
        name := r.long_name
        color := r.color
        directions := routeDirTable r.id })))]

/-! ## `get_alerts` (`src/tools/mbta.py` lines 44–118) -/

/-- One entry of `attributes.informed_entity`: the optional `route` field. -/
structure RawAlertEntity where
  route : Option String
deriving DecidableEq, Repr

/-- Raw upstream alert resource: the `attributes` fields the source reads. -/
structure RawAlert where
  header : String
  description : String
  effect : String
  severity : Nat
  informed_entity : List RawAlertEntity
  updated_at : String
deriving DecidableEq, Repr

/-- Upstream response to the `/alerts` request. -/
structure AlertsResponse where
  status : Nat
  data : List RawAlert
deriving DecidableEq, Repr

/-- Build one normalized alert record (source lines 76–92).  Python's
`list(set(affected_routes))` deduplicates with unspecified order; we model it
as `List.dedup`. -/
def mkAlertRecord (a : RawAlert) : AlertRecord :=
  { header := a.header
    description := a.description
    effect := a.effect
    severity := a.severity
    affected_routes := (a.informed_entity.filterMap (fun e => e.route)).dedup
    updated_at := a.updated_at }

/-- Comparison used by `alerts.sort(key=lambda x: x["severity"],
reverse=True)`: stable descending by severity. -/
def alertGE (a b : AlertRecord) : Bool := decide (b.severity ≤ a.severity)

/-- Message of the no-alerts branch (line 102). -/
def noAlertsMsg (route_id : Option String) : String :=
  "✅ " ++ (match route_id with | some _ => "该线路" | none => "地铁系统") ++
    "目前没有服务警报，运营正常。"

/-- Numbered summary lines for the first alerts (lines 106–110). -/
def alertLines (i : Nat) : List AlertRecord → List String
  | [] => []
  | a :: rest =>
    ("  " ++ toString i ++ ". [" ++ a.effect ++ "] " ++ a.header) ::
      alertLines (i + 1) rest

/-- Summary message for a non-empty alert list (built from the top 5). -/
def alertsMsg (alerts : List AlertRecord) : String :=
  String.intercalate "\n"
    (("⚠️ 发现 " ++ toString alerts.length ++ " 条服务警报:") ::
      alertLines 1 (alerts.take 5))

/-- The `get_alerts(route_id)` operation as a pure function of the upstream
response (`route_id` only changes the HTTP query string and is echoed). -/
def get_alerts (route_id : Option String) (resp : AlertsResponse) : Dict :=
  if resp.status ≠ 200 then
    [("error", JVal.s ("API 错误: " ++ toString resp.status))]
  else
    let alerts := stableSort alertGE (resp.data.map mkAlertRecord)
    if alerts.isEmpty then
      [("route_filter", optJ route_id),
       ("has_alerts", JVal.b false),
       ("alerts", JVal.alerts []),
       ("message", JVal.s (noAlertsMsg route_id))]
    else
      [("route_filter", optJ route_id),
       ("has_alerts", JVal.b true),
       ("alert_count", JVal.n alerts.length),
       ("alerts", JVal.alerts (alerts.take 10)),
       ("message", JVal.s (alertsMsg alerts))]

/-! ## `get_next_train` (`src/tools/mbta.py` lines 337–387) -/

/-- Diagnostic message of the no-data branch of `get_next_train`. -/
def noNextTrainMsg : String :=
  "⚠️ 当前没有列车预测数据。可能原因：1) 线路停运或维修中 2) 不在运营时间 3) 服务中断。请查看 MBTA 官方警报获取详情。"

/-- Natural-language sentence generated for the soonest prediction
(source lines 368–377). -/
def nextTrainMsg (p : PredictionRecord) : String :=
  let time_str :=
    if p.minutes < 1 then "即将到达"
    else if p.minutes == 1 then "1 分钟后到达"
    else toString p.minutes ++ " 分钟后到达"
  p.route ++ " 线下一班车 " ++ time_str ++ "，方向 " ++ p.direction

/-- The `get_next_train(stop_id, route_id, direction)` operation: wraps
`get_predictions`, passes an error dict through unchanged, and otherwise
reports the first (soonest) prediction with an explicit `has_data` flag. -/
def get_next_train (stop_id : String) (route_id direction : Option String)
    (now : Nat) (resp : PredictionsResponse) : Dict :=
  let result := get_predictions stop_id route_id direction now resp
  if hasKey "error" result then result
  else
    match predsOf result with
    | [] =>
      [("stop_id", JVal.s stop_id),
       ("route_filter", optJ route_id),
       ("direction_filter", optJ direction),
       ("has_data", JVal.b false),
       ("predictions", JVal.preds []),
       ("message", JVal.s noNextTrainMsg)]
    | next_train :: _ =>
      [("stop_id", JVal.s stop_id),
       ("route", JVal.s next_train.route),
       ("direction", JVal.s next_train.direction),
       ("minutes", JVal.n next_train.minutes),
       ("time", JVal.n next_train.time),
       ("has_data", JVal.b true),
       ("message", JVal.s (nextTrainMsg next_train))]

/-! ## `get_both_directions` (`src/tools/mbta.py` lines 390–441) -/

/-- Grouping loop (source lines 417–424): first prediction per direction
name wins; insertion order of the dict is first-appearance order. -/
def groupDirAux : List (String × DirEntry) → List PredictionRecord → List (String × DirEntry)
  | acc, [] => acc
  | acc, p :: rest =>
    if acc.any (fun e => e.1 == p.direction) then groupDirAux acc rest
    else groupDirAux (acc ++ [(p.direction, { minutes := p.minutes, time := p.time })]) rest

/-- Group predictions by direction name, keeping the first entry of each. -/
def groupDirections (l : List PredictionRecord) : List (String × DirEntry) :=
  groupDirAux [] l

/-- Diagnostic message of the no-data branch of `get_both_directions`. -/
def noBothDirectionsMsg (route_id : String) : String :=
  "⚠️ " ++ route_id ++ " 线在该站当前没有列车数据。可能原因：线路停运、维修中、或不在运营时间。"

/-- One summary line per direction (source lines 428–433). -/
def dirLine (d : String × DirEntry) : String :=
  if d.2.minutes < 1 then "  → " ++ d.1 ++ ": 即将到达"
  else "  → " ++ d.1 ++ ": " ++ toString d.2.minutes ++ " 分钟后"

/-- Summary message for a non-empty directions map. -/
def bothDirectionsMsg (route_id : String) (dirs : List (String × DirEntry)) : String :=
  String.intercalate "\n" ((route_id ++ " 线:") :: dirs.map dirLine)

/-- The `get_both_directions(stop_id, route_id)` operation: wraps
`get_predictions` (route filter set, no direction filter), passes an error
dict through unchanged, and otherwise groups predictions by direction name,
keeping the soonest entry per direction. -/
def get_both_directions (stop_id route_id : String) (now : Nat)
    (resp : PredictionsResponse) : Dict :=
  let result := get_predictions stop_id (some route_id) none now resp
  if hasKey "error" result then result
  else
    match predsOf result with
    | [] =>
      [("stop_id", JVal.s stop_id),
       ("route", JVal.s route_id),
       ("has_data", JVal.b false),
       ("directions", JVal.dirs []),
       ("message", JVal.s (noBothDirectionsMsg route_id))]
    | p :: rest =>
      let dirs := groupDirections (p :: rest)
      [("stop_id", JVal.s stop_id),
       ("route", JVal.s route_id),
       ("has_data", JVal.b true),
       ("directions", JVal.dirs dirs),
       ("message", JVal.s (bothDirectionsMsg route_id dirs))]

/-! ## User memory (`src/agent.py` lines 69–138) -/

/-- Persisted per-user memory document.  `preferences` is the preference
dict as an ordered association list (the default document created by
`_load_memory` has exactly the seven known keys, each mapped to `None`);
a preference value is an optional string (`None` or a set value).
`facts` is the ordered fact list. -/
structure UserMemory where
  user_id : String
  created_at : String
  preferences : List (String × Option String)
  facts : List String
  conversation_count : Nat
  last_conversation : Option String
deriving DecidableEq, Repr

/-- The seven known preference keys, in the order `_load_memory` creates
them (`src/agent.py` lines 85–93). -/
def prefKeys : List String :=
  ["language", "home_station", "home_station_name", "work_station",
   "work_station_name", "preferred_line", "preferred_direction"]

/-- Default memory document for a new user (`_load_memory`, lines 81–97). -/
def defaultMemory (user_id created_at : String) : UserMemory :=
  { user_id := user_id
    created_at := created_at
    preferences := prefKeys.map (fun k => (k, none))
    facts := []
    conversation_count := 0
    last_conversation := none }

/-- Result of a mutating memory operation: the outcome value, the new
document, and whether `_save_memory` ran (a disk write happened). -/
structure MutationResult where
  ok : Bool
  memory : UserMemory
  saved : Bool
deriving DecidableEq, Repr

/-- Python `self.user_memory["preferences"].get(key)` — look a key up in the
preference dict. -/
def getPref (m : UserMemory) (key : String) : Option (Option String) :=
  ((m.preferences.find? (fun p => p.1 == key)).map (fun p => p.2))

/-- The `set_preference(key, value)` operation (`src/agent.py` lines
107–123): when `key` is present in the preference dict, assign it and save,
returning `True`; otherwise return `False` without touching anything. -/
def set_preference (m : UserMemory) (key : String) (value : Option String) :
    MutationResult :=
  if m.preferences.any (fun p => p.1 == key) then
    { ok := true
      memory := { m with preferences :=
        m.preferences.map (fun p => if p.1 == key then (p.1, value) else p) }
      saved := true }
  else
    { ok := false, memory := m, saved := false }

/-- The `add_fact(fact)` operation (`src/agent.py` lines 129–138): append
the fact and save unless an identical fact is already recorded.  (The
source returns `None`; `ok` is `true` here exactly when the fact was new.) -/
def add_fact (m : UserMemory) (fact : String) : MutationResult :=
  if fact ∈ m.facts then
    { ok := false, memory := m, saved := false }
  else
    { ok := true
      memory := { m with facts := m.facts ++ [fact] }
      saved := true }

/-! ## Tool registry and dispatch (`src/agent.py` lines 269–288) -/

/-- Parsed keyword arguments of a tool call (`json.loads` result). -/
abbrev Args := List (String × JVal)

/-- A registered tool: invoking it either returns a result dict or raises,
modelled as `Except` (`Except.error e` is a Python exception with message
`e = str(e)`). -/
abbrev ToolFn := Args → Except String Dict

/-- The tool registry `self.tools`: name to function.  (`register_tool`
inserts into this dict; the schema list plays no role in dispatch.) -/
abbrev Registry := List (String × ToolFn)

/-- Error payload for an unregistered tool name (line 282). -/
def unknownToolPayload (name : String) : Dict :=
  [("error", JVal.s ("未知工具: " ++ name))]

/-- The `Agent._call_tool(name, arguments)` dispatch step (lines 279–288):
unknown names and exceptions raised by the invoked function both become a
structured error payload; a normal result is passed through.  (The source
serializes the returned dict with `json.dumps`; the transcript here carries
the dict itself.) -/
def callTool (reg : Registry) (name : String) (arguments : Args) : Dict :=
  match reg.find? (fun p => p.1 == name) with
  | none => unknownToolPayload name
  | some (_, f) =>
    match f arguments with
    | Except.ok d => d
    | Except.error e => [("error", JVal.s e)]

/-! ## Conversation loop (`src/agent.py` lines 294–356) -/

/-- One tool call requested by the model.  `arguments` models the result of
`json.loads(tool_call.function.arguments)`: `some args` when the arguments
string parses as JSON, `none` when `json.loads` would raise. -/
structure ToolCall where
  id : String
  name : String
  arguments : Option Args

/-- One model response: its text content and its (possibly empty) list of
requested tool calls.  An empty list is the falsy `tool_calls` that ends
the loop. -/
structure ModelResponse where
  content : String
  tool_calls : List ToolCall

/-- Transcript message (`self.messages` entries). -/
inductive Msg where
  | system (content : String)
  | user (content : String)
  | assistantCalls (tool_calls : List ToolCall)
  | assistantText (content : String)
  | tool (tool_call_id : String) (content : Dict)

/-- Process the tool calls of one assistant message in emission order
(lines 323–335): parse each call's arguments (`json.loads` raising —
`Except.error` — on malformed JSON, uncaught by the source), dispatch it,
and append a `tool` message with the result and the correlation id.
Returns the extended transcript and the number of dispatches performed. -/
def processCalls (reg : Registry) : List ToolCall → List Msg →
    Except String (List Msg × Nat)
  | [], msgs => Except.ok (msgs, 0)
  | c :: rest, msgs =>
    match c.arguments with
    | none => Except.error "json.loads: tool_call.function.arguments 不是合法 JSON"
    | some args =>
      match processCalls reg rest (msgs ++ [Msg.tool c.id (callTool reg c.name args)]) with
      | Except.error e => Except.error e
      | Except.ok (msgs2, k) => Except.ok (msgs2, k + 1)

/-- The `while assistant_message.tool_calls` loop of `chat` (lines
320–343), driven by the scripted model responses: a response with tool
calls appends the assistant message and the tool results and loops; a
response without tool calls is final.  Running out of scripted responses
while the loop still wants one is `Except.error` (the real client would
block on the network).  Returns the final transcript, the reply text and
the total number of tool dispatches. -/
def chatLoop (reg : Registry) : List ModelResponse → List Msg → Nat →
    Except String (List Msg × String × Nat)
  | [], _, _ => Except.error "model response script exhausted"
  | r :: rest, msgs, n =>
    if r.tool_calls.isEmpty then
      Except.ok (msgs ++ [Msg.assistantText r.content], r.content, n)
    else
      match processCalls reg r.tool_calls (msgs ++ [Msg.assistantCalls r.tool_calls]) with
      | Except.error e => Except.error e
      | Except.ok (msgs2, k) => chatLoop reg rest msgs2 (n + k)

/-- The `Agent.chat(user_message)` orchestration step (lines 294–356):
append the user message, run the model/tool loop, and on completion append
the final assistant message (done inside `chatLoop`) and bump the
conversation counter of the user memory (lines 352–354).  Returns the new
transcript, the reply, the dispatch count and the updated memory. -/
def chat (reg : Registry) (msgs : List Msg) (memory : UserMemory)
    (user_message : String) (script : List ModelResponse) :
    Except String (List Msg × String × Nat × UserMemory) :=
  match chatLoop reg script (msgs ++ [Msg.user user_message]) 0 with
  | Except.error e => Except.error e
  | Except.ok (msgs2, reply, n) =>
    Except.ok (msgs2, reply, n,
      { memory with conversation_count := memory.conversation_count + 1 })

/-! ## Concrete fixtures used by closed theorems -/

/-- A registry holding one well-behaved tool, used to exercise the
orchestration loop on concrete inputs. -/
def demoRegistry : Registry :=
  [("get_alerts", fun _ => Except.ok [("has_alerts", JVal.b false)])]

/-- Upstream fixture for `get_both_directions("place-harsq", "Red")`: one
prediction per direction of the Red line, arriving 3 minutes (180 s) and
7 minutes (420 s) after the query instant `now = 0`. -/
def redBothWaysResp : PredictionsResponse :=
  { status := 200
    data :=
      [{ arrival_time := some 180, departure_time := none, direction_id := 1,
         route_data := some "Red", status := "" },
       { arrival_time := some 420, departure_time := none, direction_id := 0,
         route_data := some "Red", status := "" }] }

/-- A scripted tool call whose arguments string parses as the empty JSON
object. -/
def demoParsedCall : ToolCall :=
  { id := "call_1", name := "get_alerts", arguments := some [] }

/-- A scripted tool call whose arguments string fails to parse as JSON. -/
def demoMalformedCall : ToolCall :=
  { id := "call_1", name := "get_alerts", arguments := none }

/-! ## Helper lemmas: substrings -/

theorem startsWithList_self_append (n s : List Char) :
    startsWithList n (n ++ s) = true := by
  induction n with
  | nil => rfl
  | cons a as ih => simp [startsWithList, ih]

theorem containsList_append_self (p n : List Char) :
    containsList n (p ++ n) = true := by
  induction p with
  | nil =>
    cases n with
    | nil => rfl
    | cons h t =>
      show containsList (h :: t) (h :: t) = true
      have hp : startsWithList (h :: t) (h :: t) = true := by
        simpa using startsWithList_self_append (h :: t) []
      simp [containsList, hp]
  | cons c cs ih =>
    show containsList n (c :: (cs ++ n)) = true
    simp [containsList]
    exact Or.inr ih

theorem strData_append (s t : String) : (s ++ t).data = s.data ++ t.data := by
  cases s; cases t; rfl

theorem pyIn_append_self (p n : String) : pyIn n (p ++ n) = true := by
  show containsList n.data (p ++ n).data = true
  rw [strData_append]
  exact containsList_append_self p.data n.data

/-! ## Helper lemmas: stable sort -/

theorem mem_insertStable (le : α → α → Bool) (x : α) (l : List α) (a : α) :
    a ∈ insertStable le x l ↔ a = x ∨ a ∈ l := by
  induction l with
  | nil => simp [insertStable]
  | cons y ys ih =>
    by_cases h : le y x = true
    · rw [insertStable, if_pos h, List.mem_cons, ih, List.mem_cons]
      tauto
    · rw [insertStable, if_neg h, List.mem_cons, List.mem_cons]

theorem pairwise_insertStable (le : α → α → Bool)
    (htrans : ∀ a b c, le a b = true → le b c = true → le a c = true)
    (htot : ∀ a b, le a b = true ∨ le b a = true)
    (x : α) (l : List α) (h : l.Pairwise (fun a b => le a b = true)) :
    (insertStable le x l).Pairwise (fun a b => le a b = true) := by
  induction l with
  | nil => simp [insertStable]
  | cons y ys ih =>
    rw [List.pairwise_cons] at h
    obtain ⟨h1, h2⟩ := h
    by_cases hc : le y x = true
    · rw [insertStable, if_pos hc, List.pairwise_cons]
      refine ⟨?_, ih h2⟩
      intro z hz
      rcases (mem_insertStable le x ys z).mp hz with rfl | hz'
      · exact hc
      · exact h1 z hz'
    · rw [insertStable, if_neg hc, List.pairwise_cons]
      have hxy : le x y = true := by
        rcases htot y x with h' | h'
        · exact absurd h' hc
        · exact h'
      refine ⟨?_, List.Pairwise.cons h1 h2⟩
      intro z hz
      rcases List.mem_cons.mp hz with rfl | hz'
      · exact hxy
      · exact htrans x y z hxy (h1 z hz')

theorem mem_foldl_insertStable (le : α → α → Bool) :
    ∀ (l acc : List α) (a : α),
      a ∈ l.foldl (fun acc x => insertStable le x acc) acc ↔ a ∈ acc ∨ a ∈ l
  | [], acc, a => by simp
  | x :: xs, acc, a => by
    rw [List.foldl_cons, mem_foldl_insertStable le xs (insertStable le x acc) a,
      mem_insertStable]
    simp
    tauto

theorem pairwise_foldl_insertStable (le : α → α → Bool)
    (htrans : ∀ a b c, le a b = true → le b c = true → le a c = true)
    (htot : ∀ a b, le a b = true ∨ le b a = true) :
    ∀ (l acc : List α), acc.Pairwise (fun a b => le a b = true) →
      (l.foldl (fun acc x => insertStable le x acc) acc).Pairwise
        (fun a b => le a b = true)
  | [], acc, h => by simpa using h
  | x :: xs, acc, h => by
    rw [List.foldl_cons]
    exact pairwise_foldl_insertStable le htrans htot xs _
      (pairwise_insertStable le htrans htot x acc h)

theorem mem_stableSort (le : α → α → Bool) (l : List α) (a : α) :
    a ∈ stableSort le l ↔ a ∈ l := by
  rw [stableSort, mem_foldl_insertStable]
  simp

theorem pairwise_stableSort (le : α → α → Bool)
    (htrans : ∀ a b c, le a b = true → le b c = true → le a c = true)
    (htot : ∀ a b, le a b = true ∨ le b a = true) (l : List α) :
    (stableSort le l).Pairwise (fun a b => le a b = true) :=
  pairwise_foldl_insertStable le htrans htot l [] (List.Pairwise.nil)

/-! ## Helper lemmas: prediction normalization -/

theorem mem_normalizePreds (now : Nat) (data : List RawPrediction)
    (p : PredictionRecord) :
    p ∈ normalizePreds now data ↔
      ∃ raw ∈ data, ∃ t, effTime raw = some t ∧ now ≤ t ∧
        p = mkPrediction now t raw := by
  rw [normalizePreds, List.mem_filterMap]
  constructor
  · rintro ⟨raw, hraw, hf⟩
    refine ⟨raw, hraw, ?_⟩
    rcases he : effTime raw with _ | t
    · rw [he] at hf; exact absurd hf (by simp)
    · rw [he] at hf
      have hf' : (if t < now then none else some (mkPrediction now t raw)) = some p := hf
      by_cases hlt : t < now
      · rw [if_pos hlt] at hf'; exact absurd hf' (by simp)
      · rw [if_neg hlt] at hf'
        exact ⟨t, rfl, Nat.le_of_not_lt hlt, (Option.some.inj hf').symm⟩
  · rintro ⟨raw, hraw, t, ht, hle, rfl⟩
    refine ⟨raw, hraw, ?_⟩
    rw [ht]
    show (if t < now then none else some (mkPrediction now t raw)) = some (mkPrediction now t raw)
    rw [if_neg (Nat.not_lt.mpr hle)]

theorem predLE_trans (a b c : PredictionRecord) :
    predLE a b = true → predLE b c = true → predLE a c = true := by
  simp only [predLE, decide_eq_true_eq]
  exact Nat.le_trans

theorem predLE_total (a b : PredictionRecord) :
    predLE a b = true ∨ predLE b a = true := by
  simp only [predLE, decide_eq_true_eq]
  exact Nat.le_total a.minutes b.minutes

theorem pairwise_processedPreds (direction : Option String) (now : Nat)
    (data : List RawPrediction) :
    (processedPreds direction now data).Pairwise
      (fun a b => a.minutes ≤ b.minutes) := by
  have hs : (stableSort predLE (normalizePreds now data)).Pairwise
      (fun a b => a.minutes ≤ b.minutes) := by
    refine List.Pairwise.imp ?_
      (pairwise_stableSort predLE predLE_trans predLE_total (normalizePreds now data))
    intro a b h
    simpa [predLE] using h
  cases direction with
  | none => exact hs
  | some d => exact List.Pairwise.sublist (List.filter_sublist _) hs

theorem mem_processedPreds (direction : Option String) (now : Nat)
    (data : List RawPrediction) (p : PredictionRecord) :
    p ∈ processedPreds direction now data ↔
      (∃ raw ∈ data, ∃ t, effTime raw = some t ∧ now ≤ t ∧
        p = mkPrediction now t raw) ∧
      (∀ d, direction = some d → pyIn (pyLower d) (pyLower p.direction) = true) := by
  cases direction with
  | none =>
    rw [processedPreds]
    show p ∈ stableSort predLE (normalizePreds now data) ↔ _
    rw [mem_stableSort, mem_normalizePreds]
    simp
  | some d =>
    rw [processedPreds]
    show p ∈ (stableSort predLE (normalizePreds now data)).filter _ ↔ _
    rw [List.mem_filter, mem_stableSort, mem_normalizePreds]
    simp

/-! ## Helper lemmas: stop deduplication and search -/

theorem mem_dedupStops :
    ∀ (l : List StopRecord) (seen : List String) (r : StopRecord),
      r ∈ dedupStops l seen →
        r.name ∉ seen ∧ l.find? (fun s => s.name == r.name) = some r
  | [], _, r => by intro h; exact absurd h (by simp [dedupStops])
  | s :: rest, seen, r => by
    intro h
    by_cases hs : s.name ∈ seen
    · rw [dedupStops, if_pos hs] at h
      obtain ⟨hns, hfind⟩ := mem_dedupStops rest seen r h
      have hbe : (s.name == r.name) = false := by
        rw [Bool.eq_false_iff]
        intro hbe
        exact hns (eq_of_beq hbe ▸ hs)
      rw [List.find?_cons, hbe]
      exact ⟨hns, hfind⟩
    · rw [dedupStops, if_neg hs] at h
      rcases List.mem_cons.mp h with rfl | h'
      · exact ⟨hs, by rw [List.find?_cons_of_pos _ (by simp)]⟩
      · obtain ⟨hns, hfind⟩ := mem_dedupStops rest (s.name :: seen) r h'
        have hne2 : r.name ≠ s.name := fun he => hns (he ▸ List.mem_cons_self _ _)
        have hbe : (s.name == r.name) = false := by
          rw [Bool.eq_false_iff]
          intro hbe
          exact hne2 (eq_of_beq hbe).symm
        rw [List.find?_cons, hbe]
        exact ⟨fun hc => hns (List.mem_cons_of_mem _ hc), hfind⟩

theorem nodup_dedupStops :
    ∀ (l : List StopRecord) (seen : List String),
      ((dedupStops l seen).map (fun r => r.name)).Nodup
  | [], _ => by simp [dedupStops]
  | s :: rest, seen => by
    by_cases hs : s.name ∈ seen
    · rw [dedupStops, if_pos hs]
      exact nodup_dedupStops rest seen
    · rw [dedupStops, if_neg hs]
      rw [List.map_cons, List.nodup_cons]
      refine ⟨?_, nodup_dedupStops rest (s.name :: seen)⟩
      intro hmem
      obtain ⟨r, hr, hname⟩ := List.mem_map.mp hmem
      exact (mem_dedupStops rest (s.name :: seen) r hr).1 (hname ▸ List.mem_cons_self _ _)

theorem dedupStops_complete :
    ∀ (l : List StopRecord) (seen : List String) (s : StopRecord),
      s ∈ l → s.name ∉ seen → ∃ r ∈ dedupStops l seen, r.name = s.name
  | [], _, s => by intro h _; exact absurd h (by simp)
  | t :: rest, seen, s => by
    intro hmem hns
    by_cases ht : t.name ∈ seen
    · rw [dedupStops, if_pos ht]
      rcases List.mem_cons.mp hmem with rfl | h'
      · exact absurd ht hns
      · exact dedupStops_complete rest seen s h' hns
    · rw [dedupStops, if_neg ht]
      by_cases heq : s.name = t.name
      · exact ⟨{ id := t.id, name := t.name }, List.mem_cons_self _ _, heq.symm⟩
      · rcases List.mem_cons.mp hmem with rfl | h'
        · exact absurd rfl heq
        · obtain ⟨r, hr, hname⟩ :=
            dedupStops_complete rest (t.name :: seen) s h'
              (by simp [heq, hns])
          exact ⟨r, List.mem_cons_of_mem _ hr, hname⟩

theorem mem_searchFilter :
    ∀ (l : List StopRecord) (seen : List String) (q : String) (r : StopRecord),
      r ∈ searchFilter q l seen →
        r.name ∉ seen ∧ pyIn q (pyLower r.name) = true ∧
          l.find? (fun s => s.name == r.name) = some r
  | [], _, q, r => by intro h; exact absurd h (by simp [searchFilter])
  | s :: rest, seen, q, r => by
    intro h
    by_cases hc : s.name ∉ seen ∧ pyIn q (pyLower s.name) = true
    · rw [searchFilter, if_pos hc] at h
      rcases List.mem_cons.mp h with rfl | h'
      · exact ⟨hc.1, hc.2, by rw [List.find?_cons_of_pos _ (by simp)]⟩
      · obtain ⟨hns, hpy, hfind⟩ := mem_searchFilter rest (s.name :: seen) q r h'
        have hne2 : r.name ≠ s.name := fun he => hns (he ▸ List.mem_cons_self _ _)
        have hbe : (s.name == r.name) = false := by
          rw [Bool.eq_false_iff]
          intro hbe
          exact hne2 (eq_of_beq hbe).symm
        rw [List.find?_cons, hbe]
        exact ⟨fun hcm => hns (List.mem_cons_of_mem _ hcm), hpy, hfind⟩
    · rw [searchFilter, if_neg hc] at h
      obtain ⟨hns, hpy, hfind⟩ := mem_searchFilter rest seen q r h
      have hne2 : r.name ≠ s.name := by
        intro he
        apply hc
        rw [← he]
        exact ⟨hns, hpy⟩
      have hbe : (s.name == r.name) = false := by
        rw [Bool.eq_false_iff]
        intro hbe
        exact hne2 (eq_of_beq hbe).symm
      rw [List.find?_cons, hbe]
      exact ⟨hns, hpy, hfind⟩

theorem nodup_searchFilter :
    ∀ (l : List StopRecord) (seen : List String) (q : String),
      ((searchFilter q l seen).map (fun r => r.name)).Nodup
  | [], _, _ => by simp [searchFilter]
  | s :: rest, seen, q => by
    by_cases hc : s.name ∉ seen ∧ pyIn q (pyLower s.name) = true
    · rw [searchFilter, if_pos hc]
      rw [List.map_cons, List.nodup_cons]
      refine ⟨?_, nodup_searchFilter rest (s.name :: seen) q⟩
      intro hmem
      obtain ⟨r, hr, hname⟩ := List.mem_map.mp hmem
      exact (mem_searchFilter rest (s.name :: seen) q r hr).1
        (hname ▸ List.mem_cons_self _ _)
    · rw [searchFilter, if_neg hc]
      exact nodup_searchFilter rest seen q

theorem searchFilter_complete :
    ∀ (l : List StopRecord) (seen : List String) (q : String) (s : StopRecord),
      s ∈ l → pyIn q (pyLower s.name) = true → s.name ∉ seen →
        ∃ r ∈ searchFilter q l seen, r.name = s.name
  | [], _, _, s => by intro h _ _; exact absurd h (by simp)
  | t :: rest, seen, q, s => by
    intro hmem hpy hns
    by_cases heq : s.name = t.name
    · have hc : t.name ∉ seen ∧ pyIn q (pyLower t.name) = true :=
        ⟨heq ▸ hns, heq ▸ hpy⟩
      rw [searchFilter, if_pos hc]
      exact ⟨{ id := t.id, name := t.name }, List.mem_cons_self _ _, heq.symm⟩
    · rcases List.mem_cons.mp hmem with rfl | h'
      · exact absurd rfl heq
      · by_cases hc : t.name ∉ seen ∧ pyIn q (pyLower t.name) = true
        · rw [searchFilter, if_pos hc]
          obtain ⟨r, hr, hname⟩ :=
            searchFilter_complete rest (t.name :: seen) q s h' hpy
              (by simp [heq, hns])
          exact ⟨r, List.mem_cons_of_mem _ hr, hname⟩
        · rw [searchFilter, if_neg hc]
          exact searchFilter_complete rest seen q s h' hpy hns

/-! ## Helper lemmas: direction grouping -/

theorem groupDirAux_mono :
    ∀ (l : List PredictionRecord) (acc : List (String × DirEntry))
      (x : String × DirEntry), x ∈ acc → x ∈ groupDirAux acc l
  | [], _, _ => by intro h; exact h
  | p :: rest, acc, x => by
    intro h
    by_cases hc : acc.any (fun e => e.1 == p.direction) = true
    · rw [groupDirAux, if_pos hc]
      exact groupDirAux_mono rest acc x h
    · rw [groupDirAux, if_neg hc]
      exact groupDirAux_mono rest _ x (List.mem_append_left _ h)

theorem groupDirAux_of_key_in_acc :
    ∀ (l : List PredictionRecord) (acc : List (String × DirEntry))
      (d : String) (e : DirEntry),
      (d, e) ∈ groupDirAux acc l → acc.any (fun x => x.1 == d) = true →
        (d, e) ∈ acc
  | [], _, _, _ => by intro h _; exact h
  | p :: rest, acc, d, e => by
    intro h hin
    by_cases hc : acc.any (fun x => x.1 == p.direction) = true
    · rw [groupDirAux, if_pos hc] at h
      exact groupDirAux_of_key_in_acc rest acc d e h hin
    · rw [groupDirAux, if_neg hc] at h
      have hin2 : (acc ++ [(p.direction, ({ minutes := p.minutes, time := p.time } : DirEntry))]).any
          (fun x => x.1 == d) = true := by
        rw [List.any_append, Bool.or_eq_true]
        exact Or.inl hin
      have h2 := groupDirAux_of_key_in_acc rest _ d e h hin2
      rcases List.mem_append.mp h2 with h3 | h3
      · exact h3
      · exfalso
        have hd : d = p.direction := congrArg Prod.fst (List.mem_singleton.mp h3)
        rw [← hd] at hc
        exact hc hin

theorem groupDirAux_first :
    ∀ (l : List PredictionRecord) (acc : List (String × DirEntry))
      (d : String) (e : DirEntry),
      (d, e) ∈ groupDirAux acc l → acc.any (fun x => x.1 == d) = false →
        ∃ p, l.find? (fun q => q.direction == d) = some p ∧
          e = { minutes := p.minutes, time := p.time }
  | [], acc, d, e => by
    intro h hout
    exfalso
    have h2 : acc.any (fun x => x.1 == d) = true :=
      List.any_eq_true.mpr ⟨(d, e), h, by simp⟩
    rw [hout] at h2
    exact Bool.false_ne_true h2
  | p :: rest, acc, d, e => by
    intro h hout
    by_cases heq : p.direction = d
    · rw [List.find?_cons_of_pos _ (by simp [heq])]
      by_cases hc : acc.any (fun x => x.1 == p.direction) = true
      · rw [heq] at hc
        rw [hc] at hout
        exact absurd hout.symm Bool.false_ne_true
      · rw [groupDirAux, if_neg hc] at h
        have hin2 : (acc ++ [(p.direction, ({ minutes := p.minutes, time := p.time } : DirEntry))]).any
            (fun x => x.1 == d) = true := by
          rw [List.any_append, Bool.or_eq_true]
          exact Or.inr (by simp [heq])
        have h2 := groupDirAux_of_key_in_acc rest _ d e h hin2
        rcases List.mem_append.mp h2 with h3 | h3
        · exfalso
          have h4 : acc.any (fun x => x.1 == d) = true :=
            List.any_eq_true.mpr ⟨(d, e), h3, by simp⟩
          rw [hout] at h4
          exact Bool.false_ne_true h4
        · exact ⟨p, rfl, congrArg Prod.snd (List.mem_singleton.mp h3)⟩
    · rw [List.find?_cons_of_neg _ (by simp [heq])]
      by_cases hc : acc.any (fun x => x.1 == p.direction) = true
      · rw [groupDirAux, if_pos hc] at h
        exact groupDirAux_first rest acc d e h hout
      · rw [groupDirAux, if_neg hc] at h
        refine groupDirAux_first rest _ d e h ?_
        rw [List.any_append, Bool.or_eq_false_iff]
        exact ⟨hout, by simp [heq]⟩

theorem groupDirAux_keys :
    ∀ (l : List PredictionRecord) (acc : List (String × DirEntry))
      (d : String) (e : DirEntry),
      (d, e) ∈ groupDirAux acc l → (d, e) ∈ acc ∨ ∃ p ∈ l, p.direction = d
  | [], _, _, _ => by intro h; exact Or.inl h
  | p :: rest, acc, d, e => by
    intro h
    by_cases hc : acc.any (fun x => x.1 == p.direction) = true
    · rw [groupDirAux, if_pos hc] at h
      rcases groupDirAux_keys rest acc d e h with h2 | ⟨q, hq, hd⟩
      · exact Or.inl h2
      · exact Or.inr ⟨q, List.mem_cons_of_mem _ hq, hd⟩
    · rw [groupDirAux, if_neg hc] at h
      rcases groupDirAux_keys rest _ d e h with h2 | ⟨q, hq, hd⟩
      · rcases List.mem_append.mp h2 with h3 | h3
        · exact Or.inl h3
        · have hd : d = p.direction := congrArg Prod.fst (List.mem_singleton.mp h3)
          exact Or.inr ⟨p, List.mem_cons_self _ _, hd.symm⟩
      · exact Or.inr ⟨q, List.mem_cons_of_mem _ hq, hd⟩

theorem groupDirAux_exists :
    ∀ (l : List PredictionRecord) (acc : List (String × DirEntry))
      (p : PredictionRecord), p ∈ l →
        ∃ e, (p.direction, e) ∈ groupDirAux acc l
  | [], _, p => by intro h; exact absurd h (by simp)
  | q :: rest, acc, p => by
    intro h
    by_cases hc : acc.any (fun x => x.1 == q.direction) = true
    · rw [groupDirAux, if_pos hc]
      rcases List.mem_cons.mp h with rfl | h'
      · obtain ⟨x, hx, hb⟩ := List.any_eq_true.mp hc
        have hx1 : x.1 = p.direction := eq_of_beq hb
        have hx2 : (p.direction, x.2) ∈ acc := by
          have hxe : x = (p.direction, x.2) := by rw [← hx1]
          rw [← hxe]
          exact hx
        exact ⟨x.2, groupDirAux_mono rest acc _ hx2⟩
      · exact groupDirAux_exists rest acc p h'
    · rw [groupDirAux, if_neg hc]
      rcases List.mem_cons.mp h with rfl | h'
      · exact ⟨{ minutes := p.minutes, time := p.time },
          groupDirAux_mono rest _ _ (List.mem_append_right _ (by simp))⟩
      · exact groupDirAux_exists rest _ p h'

theorem find?_direction_min :
    ∀ (l : List PredictionRecord),
      l.Pairwise (fun a b => a.minutes ≤ b.minutes) →
      ∀ (d : String) (p : PredictionRecord),
        l.find? (fun q => q.direction == d) = some p →
        ∀ q ∈ l, q.direction = d → p.minutes ≤ q.minutes
  | [], _, d, p => by intro h; exact absurd h (by simp)
  | x :: rest, hpw, d, p => by
    intro hfind q hq hqd
    rw [List.pairwise_cons] at hpw
    obtain ⟨h1, h2⟩ := hpw
    by_cases hx : x.direction = d
    · rw [List.find?_cons_of_pos _ (by simp [hx])] at hfind
      have hpx : p = x := (Option.some.inj hfind).symm
      rcases List.mem_cons.mp hq with rfl | hq'
      · exact hpx ▸ Nat.le_refl _
      · exact hpx ▸ h1 q hq'
    · rw [List.find?_cons_of_neg _ (by simp [hx])] at hfind
      rcases List.mem_cons.mp hq with rfl | hq'
      · exact absurd hqd hx
      · exact find?_direction_min rest h2 d p hfind q hq' hqd

/-! ## Helper lemmas: preference dict -/

theorem any_key_eq_keys_any (l : List (String × Option String)) (k : String) :
    l.any (fun p => p.1 == k) = (l.map (fun p => p.1)).any (fun x => x == k) := by
  induction l with
  | nil => rfl
  | cons p rest ih => simp [List.any_cons, ih]

theorem lookup_replace_self (l : List (String × Option String)) (key : String)
    (v : Option String) (h : l.any (fun p => p.1 == key) = true) :
    ((l.map (fun p => if p.1 == key then (p.1, v) else p)).find?
      (fun p => p.1 == key)).map (fun p => p.2) = some v := by
  induction l with
  | nil => exact absurd h (by simp)
  | cons p rest ih =>
    by_cases hp : (p.1 == key) = true
    · rw [List.map_cons, if_pos hp]
      simp only [List.find?_cons, hp]
      rfl
    · have hp' : (p.1 == key) = false := by
        rw [Bool.eq_false_iff]
        exact hp
      rw [List.map_cons, if_neg hp]
      simp only [List.find?_cons, hp']
      rw [List.any_cons, Bool.or_eq_true] at h
      rcases h with h | h
      · exact absurd h hp
      · exact ih h

theorem lookup_replace_other (l : List (String × Option String)) (key k : String)
    (v : Option String) (hk : ¬(k == key) = true) :
    ((l.map (fun p => if p.1 == key then (p.1, v) else p)).find?
      (fun p => p.1 == k)).map (fun p => p.2) =
    (l.find? (fun p => p.1 == k)).map (fun p => p.2) := by
  induction l with
  | nil => rfl
  | cons p rest ih =>
    by_cases hp : (p.1 == key) = true
    · have hpk : (p.1 == k) = false := by
        rw [Bool.eq_false_iff]
        intro hc
        exact hk (((eq_of_beq hc) ▸ hp : (k == key) = true))
      rw [List.map_cons, if_pos hp]
      simp only [List.find?_cons, hpk]
      exact ih
    · rw [List.map_cons, if_neg hp]
      by_cases hpk : (p.1 == k) = true
      · simp only [List.find?_cons, hpk]
      · have hpk' : (p.1 == k) = false := by
          rw [Bool.eq_false_iff]
          exact hpk
        simp only [List.find?_cons, hpk']
        exact ih

/-! ## Helper lemmas: tool dispatch and the chat loop -/

theorem callTool_unknown (reg : Registry) (name : String) (arguments : Args)
    (h : reg.find? (fun p => p.1 == name) = none) :
    callTool reg name arguments = unknownToolPayload name := by
  rw [callTool, h]

theorem unknownToolPayload_mentions_name (name : String) :
    ∃ msg, unknownToolPayload name = [("error", JVal.s msg)] ∧
      pyIn name msg = true :=
  ⟨"未知工具: " ++ name, rfl, pyIn_append_self "未知工具: " name⟩

theorem processCalls_all_parsed (reg : Registry) :
    ∀ (calls : List ToolCall) (msgs : List Msg),
      (∀ c ∈ calls, c.arguments.isSome = true) →
      ∃ msgs2, processCalls reg calls msgs = Except.ok (msgs2, calls.length)
  | [], msgs, _ => ⟨msgs, rfl⟩
  | c :: rest, msgs, h => by
    rcases ha : c.arguments with _ | args
    · exact absurd (ha ▸ h c (List.mem_cons_self _ _)) (by simp)
    · obtain ⟨msgs2, h2⟩ := processCalls_all_parsed reg rest
        (msgs ++ [Msg.tool c.id (callTool reg c.name args)])
        (fun c' hc' => h c' (List.mem_cons_of_mem _ hc'))
      refine ⟨msgs2, ?_⟩
      simp only [processCalls, ha, h2, List.length_cons]

theorem chatLoop_no_crash (reg : Registry) :
    ∀ (script : List ModelResponse) (msgs : List Msg) (n : Nat),
      (∀ r ∈ script, ∀ c ∈ r.tool_calls, c.arguments.isSome = true) →
      (∃ r ∈ script, r.tool_calls = []) →
      ∃ out, chatLoop reg script msgs n = Except.ok out
  | [], _, _, _, hfin => by
    obtain ⟨r, hr, _⟩ := hfin
    exact absurd hr (by simp)
  | r :: rest, msgs, n, hargs, hfin => by
    by_cases he : r.tool_calls.isEmpty = true
    · exact ⟨(msgs ++ [Msg.assistantText r.content], r.content, n), by
        rw [chatLoop, if_pos he]⟩
    · obtain ⟨msgs2, h2⟩ := processCalls_all_parsed reg r.tool_calls
        (msgs ++ [Msg.assistantCalls r.tool_calls])
        (hargs r (List.mem_cons_self _ _))
      have hfin2 : ∃ r' ∈ rest, r'.tool_calls = [] := by
        obtain ⟨r', hr', hr'e⟩ := hfin
        rcases List.mem_cons.mp hr' with rfl | hmem
        · exact absurd (by rw [hr'e]; rfl) he
        · exact ⟨r', hmem, hr'e⟩
      obtain ⟨out, hout⟩ := chatLoop_no_crash reg rest msgs2 (n + r.tool_calls.length)
        (fun r' hr' => hargs r' (List.mem_cons_of_mem _ hr')) hfin2
      exact ⟨out, by simp only [chatLoop, if_neg he, h2, hout]⟩

/-! ## Helper lemmas: result shapes of `get_predictions` -/

theorem get_predictions_error_shape (sid : String) (rid dir : Option String)
    (now : Nat) (resp : PredictionsResponse) (h : resp.status ≠ 200) :
    get_predictions sid rid dir now resp =
      [("error", JVal.s ("API 错误: " ++ toString resp.status)),
       ("stop_id", JVal.s sid)] := by
  rw [get_predictions, if_pos h]

theorem get_predictions_empty_shape (sid : String) (rid dir : Option String)
    (now : Nat) (resp : PredictionsResponse) (h : resp.status = 200)
    (hd : resp.data = []) :
    get_predictions sid rid dir now resp =
      [("stop_id", JVal.s sid), ("predictions", JVal.preds []),
       ("message", JVal.s noPredictionsMsg)] := by
  rw [get_predictions, if_neg (fun hc => hc h), if_pos (by rw [hd]; rfl)]

theorem get_predictions_ok_shape (sid : String) (rid dir : Option String)
    (now : Nat) (resp : PredictionsResponse) (h : resp.status = 200)
    (hd : resp.data ≠ []) :
    get_predictions sid rid dir now resp =
      [("stop_id", JVal.s sid), ("route_filter", optJ rid),
       ("direction_filter", optJ dir),
       ("predictions", JVal.preds ((processedPreds dir now resp.data).take 10))] := by
  have hde : resp.data.isEmpty ≠ true := by
    intro hc
    exact hd (List.isEmpty_iff.mp hc)
  rw [get_predictions, if_neg (fun hc => hc h), if_neg hde]

theorem get_predictions_no_error_key (sid : String) (rid dir : Option String)
    (now : Nat) (resp : PredictionsResponse) (h : resp.status = 200) :
    hasKey "error" (get_predictions sid rid dir now resp) = false := by
  by_cases hd : resp.data = []
  · rw [get_predictions_empty_shape sid rid dir now resp h hd]
    rfl
  · rw [get_predictions_ok_shape sid rid dir now resp h hd]
    rfl

theorem get_predictions_error_key (sid : String) (rid dir : Option String)
    (now : Nat) (resp : PredictionsResponse) (h : resp.status ≠ 200) :
    hasKey "error" (get_predictions sid rid dir now resp) = true := by
  rw [get_predictions_error_shape sid rid dir now resp h]
  rfl

/-! ## Claim theorems -/

/-- Claim C10: when the underlying `get_predictions` call fails (upstream
status other than 200), `get_next_train` and `get_both_directions` return
the error dict unchanged; that dict carries an `error` key and no
`has_data` key. -/
theorem error_passthrough_no_has_data (stop_id : String)
    (route_id direction : Option String) (rid : String) (now : Nat)
    (resp : PredictionsResponse) (h : resp.status ≠ 200) :
    get_next_train stop_id route_id direction now resp =
        get_predictions stop_id route_id direction now resp ∧
    get_both_directions stop_id rid now resp =
        get_predictions stop_id (some rid) none now resp ∧
    hasKey "error" (get_next_train stop_id route_id direction now resp) = true ∧
    hasKey "has_data" (get_next_train stop_id route_id direction now resp) = false ∧
    hasKey "error" (get_both_directions stop_id rid now resp) = true ∧
    hasKey "has_data" (get_both_directions stop_id rid now resp) = false := by
  have herr1 := get_predictions_error_key stop_id route_id direction now resp h
  have herr2 := get_predictions_error_key stop_id (some rid) none now resp h
  have hnt : get_next_train stop_id route_id direction now resp =
      get_predictions stop_id route_id direction now resp := by
    rw [get_next_train]
    simp only [herr1, if_true]
  have hbd : get_both_directions stop_id rid now resp =
      get_predictions stop_id (some rid) none now resp := by
    rw [get_both_directions]
    simp only [herr2, if_true]
  refine ⟨hnt, hbd, ?_, ?_, ?_, ?_⟩
  · rw [hnt]
    exact herr1
  · rw [hnt, get_predictions_error_shape stop_id route_id direction now resp h]
    rfl
  · rw [hbd]
    exact herr2
  · rw [hbd, get_predictions_error_shape stop_id (some rid) none now resp h]
    rfl

/-- Claim C10 witness: concrete instantiation at upstream status 500. -/
theorem error_passthrough_no_has_data_witness :
    (500 : Nat) ≠ 200 ∧
    hasKey "error"
      (get_next_train "place-harsq" none none 0
        { status := 500, data := [] }) = true ∧
    hasKey "has_data"
      (get_next_train "place-harsq" none none 0
        { status := 500, data := [] }) = false :=
  ⟨by decide,
   (error_passthrough_no_has_data "place-harsq" none none "Red" 0
     { status := 500, data := [] } (by decide)).2.2.1,
   (error_passthrough_no_has_data "place-harsq" none none "Red" 0
     { status := 500, data := [] } (by decide)).2.2.2.1⟩

/-- Claim C1: when `get_predictions` does not return an error,
`get_next_train` carries an explicit boolean `has_data` flag which is
`false` — together with the diagnostic message — exactly when the filtered
prediction list is empty; when the list is non-empty, `has_data` is `true`
and the result carries the route, direction, minutes and time of the first
(soonest) prediction plus the generated natural-language message. -/
theorem next_train_has_data_iff_empty (sid : String) (rid dir : Option String)
    (now : Nat) (resp : PredictionsResponse)
    (h : hasKey "error" (get_predictions sid rid dir now resp) = false) :
    (getKey "has_data" (get_next_train sid rid dir now resp) =
        some (JVal.b false) ↔
      predsOf (get_predictions sid rid dir now resp) = []) ∧
    (predsOf (get_predictions sid rid dir now resp) = [] →
      get_next_train sid rid dir now resp =
        [("stop_id", JVal.s sid), ("route_filter", optJ rid),
         ("direction_filter", optJ dir), ("has_data", JVal.b false),
         ("predictions", JVal.preds []), ("message", JVal.s noNextTrainMsg)]) ∧
    (∀ p rest, predsOf (get_predictions sid rid dir now resp) = p :: rest →
      getKey "has_data" (get_next_train sid rid dir now resp) =
          some (JVal.b true) ∧
      getKey "route" (get_next_train sid rid dir now resp) =
          some (JVal.s p.route) ∧
      getKey "direction" (get_next_train sid rid dir now resp) =
          some (JVal.s p.direction) ∧
      getKey "minutes" (get_next_train sid rid dir now resp) =
          some (JVal.n p.minutes) ∧
      getKey "time" (get_next_train sid rid dir now resp) =
          some (JVal.n p.time) ∧
      getKey "message" (get_next_train sid rid dir now resp) =
          some (JVal.s (nextTrainMsg p))) := by
  have hnt : get_next_train sid rid dir now resp =
      (match predsOf (get_predictions sid rid dir now resp) with
       | [] =>
         [("stop_id", JVal.s sid), ("route_filter", optJ rid),
          ("direction_filter", optJ dir), ("has_data", JVal.b false),
          ("predictions", JVal.preds []), ("message", JVal.s noNextTrainMsg)]
       | next_train :: _ =>
         [("stop_id", JVal.s sid), ("route", JVal.s next_train.route),
          ("direction", JVal.s next_train.direction),
          ("minutes", JVal.n next_train.minutes),
          ("time", JVal.n next_train.time), ("has_data", JVal.b true),
          ("message", JVal.s (nextTrainMsg next_train))]) := by
    rw [get_next_train]
    simp only [h, Bool.false_eq_true, if_false]
  rcases hp : predsOf (get_predictions sid rid dir now resp) with _ | ⟨p, rest⟩
  · rw [hp] at hnt
    refine ⟨?_, fun _ => hnt, fun p rest hc => absurd hc (by simp)⟩
    rw [hnt]
    exact ⟨fun _ => rfl, fun _ => rfl⟩
  · rw [hp] at hnt
    refine ⟨?_, fun hc => absurd hc (by simp), fun q qrest hq => ?_⟩
    · rw [hnt]
      constructor
      · intro hc
        exact absurd (Option.some.inj hc) (by simp)
      · intro hc
        exact absurd hc (by simp)
    · have hpq : q = p := (List.cons.inj hq).1.symm
      rw [hnt, hpq]
      exact ⟨rfl, rfl, rfl, rfl, rfl, rfl⟩

/-- Claim C1 witness: a successful response with no raw predictions yields
`has_data = false`, and a response with one future prediction yields
`has_data = true` with the soonest record's fields. -/
theorem next_train_has_data_iff_empty_witness :
    hasKey "error"
        (get_predictions "place-harsq" none none 0
          { status := 200, data := [] }) = false ∧
    getKey "has_data"
        (get_next_train "place-harsq" none none 0
          { status := 200, data := [] }) = some (JVal.b false) :=
  ⟨by decide,
   (next_train_has_data_iff_empty "place-harsq" none none 0
       { status := 200, data := [] } (by decide)).1.mpr (by decide)⟩

/-- Claim C2: for a successful `get_predictions` call, each record's wait
time comes from its arrival time with fallback to the departure time, a
record with neither is dropped, a record earlier than `now` is dropped, the
returned list is non-decreasing in `minutes`, filtered by the optional
case-insensitive direction substring, capped at 10 entries, and contains no
entry whose computed arrival time is before `now`. -/
theorem predictions_normalization_sound (sid : String) (rid dir : Option String)
    (now : Nat) (resp : PredictionsResponse)
    (h200 : resp.status = 200) (hne : resp.data ≠ []) :
    get_predictions sid rid dir now resp =
      [("stop_id", JVal.s sid), ("route_filter", optJ rid),
       ("direction_filter", optJ dir),
       ("predictions", JVal.preds ((processedPreds dir now resp.data).take 10))] ∧
    ((processedPreds dir now resp.data).take 10).Pairwise
      (fun a b => a.minutes ≤ b.minutes) ∧
    ((processedPreds dir now resp.data).take 10).length ≤ 10 ∧
    (∀ p ∈ (processedPreds dir now resp.data).take 10,
      now ≤ p.time ∧
      (∃ raw ∈ resp.data, effTime raw = some p.time ∧
        p = mkPrediction now p.time raw) ∧
      (∀ d, dir = some d → pyIn (pyLower d) (pyLower p.direction) = true)) ∧
    (∀ p, p ∈ processedPreds dir now resp.data ↔
      (∃ raw ∈ resp.data, ∃ t, effTime raw = some t ∧ now ≤ t ∧
        p = mkPrediction now t raw) ∧
      (∀ d, dir = some d → pyIn (pyLower d) (pyLower p.direction) = true)) := by
  refine ⟨get_predictions_ok_shape sid rid dir now resp h200 hne, ?_, ?_, ?_, ?_⟩
  · exact List.Pairwise.sublist (List.take_sublist 10 _)
      (pairwise_processedPreds dir now resp.data)
  · rw [List.length_take]
    exact Nat.min_le_left _ _
  · intro p hp
    have hp2 : p ∈ processedPreds dir now resp.data :=
      List.take_subset 10 _ hp
    obtain ⟨⟨raw, hraw, t, ht, hle, hpe⟩, hdir⟩ :=
      (mem_processedPreds dir now resp.data p).mp hp2
    have htime : p.time = t := by rw [hpe]; rfl
    refine ⟨htime ▸ hle, ⟨raw, hraw, htime ▸ ht, ?_⟩, hdir⟩
    rw [htime]
    exact hpe
  · intro p
    exact mem_processedPreds dir now resp.data p

/-- Claim C2 witness: concrete instantiation on a fixture with two future
Red-line predictions. -/
theorem predictions_normalization_sound_witness :
    redBothWaysResp.status = 200 ∧ redBothWaysResp.data ≠ [] ∧
    get_predictions "place-harsq" (some "Red") none 0 redBothWaysResp =
      [("stop_id", JVal.s "place-harsq"), ("route_filter", optJ (some "Red")),
       ("direction_filter", optJ none),
       ("predictions",
        JVal.preds ((processedPreds none 0 redBothWaysResp.data).take 10))] :=
  ⟨by decide, by decide,
   (predictions_normalization_sound "place-harsq" (some "Red") none 0
     redBothWaysResp (by decide) (by decide)).1⟩

/-- Claim C9 (amended): for a successful, non-empty `get_both_directions`
call, the directions map holds one entry per distinct direction name of the
prediction list, each carrying the minutes and time of the soonest
prediction for that direction.  (On the Red line the code's direction names
are "Alewife" and "Ashmont/Braintree", the latter not the claim's
"Ashmont".) -/
theorem both_directions_grouping (sid rid : String) (now : Nat)
    (resp : PredictionsResponse) (h200 : resp.status = 200)
    (hdne : resp.data ≠ [])
    (hpne : (processedPreds none now resp.data).take 10 ≠ []) :
    get_both_directions sid rid now resp =
      [("stop_id", JVal.s sid), ("route", JVal.s rid),
       ("has_data", JVal.b true),
       ("directions",
        JVal.dirs (groupDirections ((processedPreds none now resp.data).take 10))),
       ("message",
        JVal.s (bothDirectionsMsg rid
          (groupDirections ((processedPreds none now resp.data).take 10))))] ∧
    (∀ d, (∃ e, (d, e) ∈ groupDirections ((processedPreds none now resp.data).take 10)) ↔
      ∃ p ∈ (processedPreds none now resp.data).take 10, p.direction = d) ∧
    (∀ d e, (d, e) ∈ groupDirections ((processedPreds none now resp.data).take 10) →
      ∃ p ∈ (processedPreds none now resp.data).take 10,
        p.direction = d ∧ e.minutes = p.minutes ∧ e.time = p.time ∧
        ∀ q ∈ (processedPreds none now resp.data).take 10,
          q.direction = d → p.minutes ≤ q.minutes) := by
  have hgp := get_predictions_ok_shape sid (some rid) none now resp h200 hdne
  have herr := get_predictions_no_error_key sid (some rid) none now resp h200
  have hpreds : predsOf (get_predictions sid (some rid) none now resp) =
      (processedPreds none now resp.data).take 10 := by
    rw [hgp]
    rfl
  have hpw : ((processedPreds none now resp.data).take 10).Pairwise
      (fun a b => a.minutes ≤ b.minutes) :=
    List.Pairwise.sublist (List.take_sublist 10 _)
      (pairwise_processedPreds none now resp.data)
  refine ⟨?_, ?_, ?_⟩
  · rcases hl : (processedPreds none now resp.data).take 10 with _ | ⟨p, rest⟩
    · exact absurd hl hpne
    · rw [get_both_directions]
      simp only [herr, Bool.false_eq_true, if_false]
      rw [hpreds, hl]
  · intro d
    constructor
    · rintro ⟨e, he⟩
      rcases groupDirAux_keys _ [] d e he with h0 | h1
      · exact absurd h0 (by simp)
      · exact h1
    · rintro ⟨p, hp, rfl⟩
      exact groupDirAux_exists _ [] p hp
  · intro d e he
    obtain ⟨p, hfind, hee⟩ := groupDirAux_first _ [] d e he rfl
    have hpmem : p ∈ (processedPreds none now resp.data).take 10 :=
      List.mem_of_find?_eq_some hfind
    have hpd : p.direction = d := by
      have := List.find?_some hfind
      exact eq_of_beq this
    refine ⟨p, hpmem, hpd, by rw [hee], by rw [hee], ?_⟩
    exact find?_direction_min _ hpw d p hfind

/-- Claim C9 witness: concrete instantiation on the Red-line fixture
(one prediction per direction, 3 and 7 minutes out). -/
theorem both_directions_grouping_witness :
    redBothWaysResp.status = 200 ∧ redBothWaysResp.data ≠ [] ∧
    (processedPreds none 0 redBothWaysResp.data).take 10 ≠ [] ∧
    get_both_directions "place-harsq" "Red" 0 redBothWaysResp =
      [("stop_id", JVal.s "place-harsq"), ("route", JVal.s "Red"),
       ("has_data", JVal.b true),
       ("directions",
        JVal.dirs (groupDirections ((processedPreds none 0 redBothWaysResp.data).take 10))),
       ("message",
        JVal.s (bothDirectionsMsg "Red"
          (groupDirections ((processedPreds none 0 redBothWaysResp.data).take 10))))] :=
  ⟨by decide, by decide, by decide,
   (both_directions_grouping "place-harsq" "Red" 0 redBothWaysResp
     (by decide) (by decide) (by decide)).1⟩

/-- Claim C9 counterexample: on the fixture with one prediction per Red-line
direction (3 and 7 minutes out), the directions map keys are "Alewife" and
"Ashmont/Braintree" — there is no "Ashmont" entry, contrary to the claimed
`directions = {"Alewife": {minutes: 3}, "Ashmont": {minutes: 7}}`. -/
theorem both_directions_red_direction_names :
    getKey "directions" (get_both_directions "place-harsq" "Red" 0 redBothWaysResp) =
      some (JVal.dirs
        [("Alewife", { minutes := 3, time := 180 }),
         ("Ashmont/Braintree", { minutes := 7, time := 420 })]) ∧
    getKey "has_data" (get_both_directions "place-harsq" "Red" 0 redBothWaysResp) =
      some (JVal.b true) ∧
    ([("Alewife", ({ minutes := 3, time := 180 } : DirEntry)),
      ("Ashmont/Braintree", { minutes := 7, time := 420 })].find?
        (fun x => x.1 == "Ashmont")) = none := by
  decide

/-- Claim C6 (amended): successful `get_stops` and `search_stops` calls
return stop lists with pairwise-distinct names, keeping the first-seen
record (hence first-seen id) for each name; a stop name appears in the
`search_stops` results exactly when some raw stop has that name and the
lowercased name contains the lowercased, whitespace-stripped query as a
substring.  (The source strips the query before matching, so a query with
surrounding whitespace matches more names than the claim's literal-query
reading allows.) -/
theorem stops_dedup_and_search_match (rid q : String)
    (resp1 resp2 : StopsResponse)
    (h1 : resp1.status = 200) (h2 : resp2.status = 200) :
    get_stops rid resp1 =
      [("route", JVal.s rid), ("directions", JVal.dirTable (routeDirTable rid)),
       ("stops", JVal.stops (dedupStops resp1.data []))] ∧
    ((dedupStops resp1.data []).map (fun r => r.name)).Nodup ∧
    (∀ r ∈ dedupStops resp1.data [],
      resp1.data.find? (fun s => s.name == r.name) = some r) ∧
    (∀ s ∈ resp1.data, ∃ r ∈ dedupStops resp1.data [], r.name = s.name) ∧
    search_stops q resp2 =
      [("query", JVal.s q),
       ("count", JVal.n (searchFilter (pyStrip (pyLower q)) resp2.data []).length),
       ("results", JVal.stops (searchFilter (pyStrip (pyLower q)) resp2.data []))] ∧
    ((searchFilter (pyStrip (pyLower q)) resp2.data []).map (fun r => r.name)).Nodup ∧
    (∀ r ∈ searchFilter (pyStrip (pyLower q)) resp2.data [],
      resp2.data.find? (fun s => s.name == r.name) = some r) ∧
    (∀ name, (∃ r ∈ searchFilter (pyStrip (pyLower q)) resp2.data [], r.name = name) ↔
      ((∃ s ∈ resp2.data, s.name = name) ∧
        pyIn (pyStrip (pyLower q)) (pyLower name) = true)) := by
  refine ⟨?_, nodup_dedupStops resp1.data [], ?_, ?_, ?_,
    nodup_searchFilter resp2.data [] (pyStrip (pyLower q)), ?_, ?_⟩
  · rw [get_stops, if_neg (fun hc => hc h1)]
  · intro r hr
    exact (mem_dedupStops resp1.data [] r hr).2
  · intro s hs
    exact dedupStops_complete resp1.data [] s hs (by simp)
  · rw [search_stops, if_neg (fun hc => hc h2)]
  · intro r hr
    exact (mem_searchFilter resp2.data [] (pyStrip (pyLower q)) r hr).2.2
  · intro name
    constructor
    · rintro ⟨r, hr, rfl⟩
      obtain ⟨_, hpy, hfind⟩ :=
        mem_searchFilter resp2.data [] (pyStrip (pyLower q)) r hr
      exact ⟨⟨r, List.mem_of_find?_eq_some hfind, rfl⟩, hpy⟩
    · rintro ⟨⟨s, hs, rfl⟩, hpy⟩
      obtain ⟨r, hr, hrn⟩ :=
        searchFilter_complete resp2.data [] (pyStrip (pyLower q)) s hs hpy (by simp)
      exact ⟨r, hr, hrn⟩

/-- Claim C6 witness: concrete instantiation with a duplicated platform name
and a two-stop search. -/
theorem stops_dedup_and_search_match_witness :
    get_stops "Red"
        { status := 200,
          data := [{ id := "70067", name := "Harvard" },
                   { id := "70068", name := "Harvard" },
                   { id := "70071", name := "Central" }] } =
      [("route", JVal.s "Red"), ("directions", JVal.dirTable (routeDirTable "Red")),
       ("stops", JVal.stops (dedupStops
         [{ id := "70067", name := "Harvard" },
          { id := "70068", name := "Harvard" },
          { id := "70071", name := "Central" }] []))] ∧
    dedupStops
        [{ id := "70067", name := "Harvard" },
         { id := "70068", name := "Harvard" },
         { id := "70071", name := "Central" }] [] =
      [{ id := "70067", name := "Harvard" }, { id := "70071", name := "Central" }] :=
  ⟨(stops_dedup_and_search_match "Red" "har"
      { status := 200,
        data := [{ id := "70067", name := "Harvard" },
                 { id := "70068", name := "Harvard" },
                 { id := "70071", name := "Central" }] }
      { status := 200, data := [] } (by decide) (by decide)).1,
   by decide⟩

/-- Claim C6 counterexample: with the query `" Harvard"` (leading space) and
one stop named `"Harvard"`, the stop is returned although its lowercased
name does not contain the lowercased query — the source matches against the
stripped query, so the claimed "contains the query" biconditional fails. -/
theorem search_stops_unstripped_query :
    search_stops " Harvard"
        { status := 200, data := [{ id := "place-harsq", name := "Harvard" }] } =
      [("query", JVal.s " Harvard"), ("count", JVal.n 1),
       ("results", JVal.stops [{ id := "place-harsq", name := "Harvard" }])] ∧
    pyIn (pyLower " Harvard") (pyLower "Harvard") = false := by
  decide

/-- Bool contradiction helper for literal dicts whose keys are known. -/
theorem hasKey_false_elim {d : Dict} {k : String} (ht : hasKey k d = true)
    (hf : hasKey k d = false) : False := by
  rw [hf] at ht
  exact Bool.false_ne_true ht

/-- Claim C5 (amended): every Transit Data Client operation returns a dict
containing an `error` key exactly when the upstream HTTP status differs
from 200 (the source tests `status_code != 200`, not membership in the 2xx
class), and in that case returns the error dict immediately, with no
normalized data fields. -/
theorem error_key_iff_status_ne_200 :
    (∀ (rt : String) (resp : RoutesResponse),
      (hasKey "error" (get_routes rt resp) = true ↔ resp.status ≠ 200) ∧
      (resp.status ≠ 200 → get_routes rt resp =
        [("error", JVal.s ("API 错误: " ++ toString resp.status))])) ∧
    (∀ (rid : String) (resp : StopsResponse),
      (hasKey "error" (get_stops rid resp) = true ↔ resp.status ≠ 200) ∧
      (resp.status ≠ 200 → get_stops rid resp =
        [("error", JVal.s ("API 错误: " ++ toString resp.status))])) ∧
    (∀ (q : String) (resp : StopsResponse),
      (hasKey "error" (search_stops q resp) = true ↔ resp.status ≠ 200) ∧
      (resp.status ≠ 200 → search_stops q resp =
        [("error", JVal.s ("API 错误: " ++ toString resp.status))])) ∧
    (∀ (rid : Option String) (resp : AlertsResponse),
      (hasKey "error" (get_alerts rid resp) = true ↔ resp.status ≠ 200) ∧
      (resp.status ≠ 200 → get_alerts rid resp =
        [("error", JVal.s ("API 错误: " ++ toString resp.status))])) ∧
    (∀ (sid : String) (rid dir : Option String) (now : Nat)
        (resp : PredictionsResponse),
      (hasKey "error" (get_predictions sid rid dir now resp) = true ↔
        resp.status ≠ 200) ∧
      (resp.status ≠ 200 → get_predictions sid rid dir now resp =
        [("error", JVal.s ("API 错误: " ++ toString resp.status)),
         ("stop_id", JVal.s sid)])) ∧
    (∀ (sid : String) (rid dir : Option String) (now : Nat)
        (resp : PredictionsResponse),
      (hasKey "error" (get_next_train sid rid dir now resp) = true ↔
        resp.status ≠ 200)) ∧
    (∀ (sid rid : String) (now : Nat) (resp : PredictionsResponse),
      (hasKey "error" (get_both_directions sid rid now resp) = true ↔
        resp.status ≠ 200)) := by
  have hroutes : ∀ (rt : String) (resp : RoutesResponse),
      (hasKey "error" (get_routes rt resp) = true ↔ resp.status ≠ 200) ∧
      (resp.status ≠ 200 → get_routes rt resp =
        [("error", JVal.s ("API 错误: " ++ toString resp.status))]) := by
    intro rt resp
    by_cases h : resp.status ≠ 200
    · rw [get_routes, if_pos h]
      exact ⟨⟨fun _ => h, fun _ => rfl⟩, fun _ => rfl⟩
    · rw [get_routes, if_neg h]
      exact ⟨⟨fun hc => (hasKey_false_elim hc rfl).elim, fun hc => absurd hc h⟩,
        fun hc => absurd hc h⟩
  have hstops : ∀ (rid : String) (resp : StopsResponse),
      (hasKey "error" (get_stops rid resp) = true ↔ resp.status ≠ 200) ∧
      (resp.status ≠ 200 → get_stops rid resp =
        [("error", JVal.s ("API 错误: " ++ toString resp.status))]) := by
    intro rid resp
    by_cases h : resp.status ≠ 200
    · rw [get_stops, if_pos h]
      exact ⟨⟨fun _ => h, fun _ => rfl⟩, fun _ => rfl⟩
    · rw [get_stops, if_neg h]
      exact ⟨⟨fun hc => (hasKey_false_elim hc rfl).elim, fun hc => absurd hc h⟩,
        fun hc => absurd hc h⟩
  have hsearch : ∀ (q : String) (resp : StopsResponse),
      (hasKey "error" (search_stops q resp) = true ↔ resp.status ≠ 200) ∧
      (resp.status ≠ 200 → search_stops q resp =
        [("error", JVal.s ("API 错误: " ++ toString resp.status))]) := by
    intro q resp
    by_cases h : resp.status ≠ 200
    · rw [search_stops, if_pos h]
      exact ⟨⟨fun _ => h, fun _ => rfl⟩, fun _ => rfl⟩
    · rw [search_stops, if_neg h]
      exact ⟨⟨fun hc => (hasKey_false_elim hc rfl).elim, fun hc => absurd hc h⟩,
        fun hc => absurd hc h⟩
  have halerts : ∀ (rid : Option String) (resp : AlertsResponse),
      (hasKey "error" (get_alerts rid resp) = true ↔ resp.status ≠ 200) ∧
      (resp.status ≠ 200 → get_alerts rid resp =
        [("error", JVal.s ("API 错误: " ++ toString resp.status))]) := by
    intro rid resp
    by_cases h : resp.status ≠ 200
    · rw [get_alerts, if_pos h]
      exact ⟨⟨fun _ => h, fun _ => rfl⟩, fun _ => rfl⟩
    · rw [get_alerts, if_neg h]
      by_cases he : (stableSort alertGE (resp.data.map mkAlertRecord)).isEmpty = true
      · rw [if_pos he]
        exact ⟨⟨fun hc => (hasKey_false_elim hc rfl).elim, fun hc => absurd hc h⟩,
          fun hc => absurd hc h⟩
      · rw [if_neg he]
        exact ⟨⟨fun hc => (hasKey_false_elim hc rfl).elim, fun hc => absurd hc h⟩,
          fun hc => absurd hc h⟩
  have hpreds : ∀ (sid : String) (rid dir : Option String) (now : Nat)
      (resp : PredictionsResponse),
      (hasKey "error" (get_predictions sid rid dir now resp) = true ↔
        resp.status ≠ 200) ∧
      (resp.status ≠ 200 → get_predictions sid rid dir now resp =
        [("error", JVal.s ("API 错误: " ++ toString resp.status)),
         ("stop_id", JVal.s sid)]) := by
    intro sid rid dir now resp
    by_cases h : resp.status ≠ 200
    · exact ⟨⟨fun _ => h,
        fun _ => get_predictions_error_key sid rid dir now resp h⟩,
        fun _ => get_predictions_error_shape sid rid dir now resp h⟩
    · have h200 : resp.status = 200 := Decidable.not_not.mp h
      refine ⟨⟨fun hc => ?_, fun hc => absurd hc h⟩, fun hc => absurd hc h⟩
      rw [get_predictions_no_error_key sid rid dir now resp h200] at hc
      exact absurd hc (by simp)
  have hnt : ∀ (sid : String) (rid dir : Option String) (now : Nat)
      (resp : PredictionsResponse),
      hasKey "error" (get_next_train sid rid dir now resp) = true ↔
        resp.status ≠ 200 := by
    intro sid rid dir now resp
    by_cases h : resp.status ≠ 200
    · have herr := get_predictions_error_key sid rid dir now resp h
      have heq : get_next_train sid rid dir now resp =
          get_predictions sid rid dir now resp := by
        rw [get_next_train]
        simp only [herr, if_true]
      rw [heq]
      exact (hpreds sid rid dir now resp).1
    · have h200 : resp.status = 200 := Decidable.not_not.mp h
      have herr := get_predictions_no_error_key sid rid dir now resp h200
      rw [get_next_train]
      simp only [herr, Bool.false_eq_true, if_false]
      rcases predsOf (get_predictions sid rid dir now resp) with _ | ⟨p, rest⟩
      · exact ⟨fun hc => (hasKey_false_elim hc rfl).elim, fun hc => absurd hc h⟩
      · exact ⟨fun hc => (hasKey_false_elim hc rfl).elim, fun hc => absurd hc h⟩
  have hbd : ∀ (sid rid : String) (now : Nat) (resp : PredictionsResponse),
      hasKey "error" (get_both_directions sid rid now resp) = true ↔
        resp.status ≠ 200 := by
    intro sid rid now resp
    by_cases h : resp.status ≠ 200
    · have herr := get_predictions_error_key sid (some rid) none now resp h
      have heq : get_both_directions sid rid now resp =
          get_predictions sid (some rid) none now resp := by
        rw [get_both_directions]
        simp only [herr, if_true]
      rw [heq]
      exact (hpreds sid (some rid) none now resp).1
    · have h200 : resp.status = 200 := Decidable.not_not.mp h
      have herr := get_predictions_no_error_key sid (some rid) none now resp h200
      rw [get_both_directions]
      simp only [herr, Bool.false_eq_true, if_false]
      rcases predsOf (get_predictions sid (some rid) none now resp) with _ | ⟨p, rest⟩
      · exact ⟨fun hc => (hasKey_false_elim hc rfl).elim, fun hc => absurd hc h⟩
      · exact ⟨fun hc => (hasKey_false_elim hc rfl).elim, fun hc => absurd hc h⟩
  exact ⟨hroutes, hstops, hsearch, halerts, hpreds, hnt, hbd⟩

/-- Claim C5 witness: at upstream status 500, `get_routes` reports an
upstream-API error and nothing else. -/
theorem error_key_iff_status_ne_200_witness :
    hasKey "error" (get_routes "0,1" { status := 500, data := [] }) = true :=
  (error_key_iff_status_ne_200.1 "0,1" { status := 500, data := [] }).1.mpr
    (by decide)

/-- Claim C5 counterexample: HTTP status 201 is a 2xx success, yet the code
(`status_code != 200`) returns an error dict for it, so "error key if and
only if non-2xx status" fails at status 201. -/
theorem error_key_at_status_201 :
    hasKey "error" (get_routes "0,1" { status := 201, data := [] }) = true ∧
    get_routes "0,1" { status := 201, data := [] } =
      [("error", JVal.s "API 错误: 201")] ∧
    200 ≤ 201 ∧ 201 < 300 := by
  decide

/-- Claim C7: on a memory document with the seven known preference keys,
`set_preference` with an unknown key returns failure, mutates nothing and
does not save; with a known key it returns success, assigns exactly that
key, leaves every other key and the facts untouched, and saves. -/
theorem set_preference_known_keys_only (m : UserMemory) (key : String)
    (v : Option String)
    (hk : m.preferences.map (fun p => p.1) = prefKeys) :
    (key ∉ prefKeys →
      set_preference m key v = { ok := false, memory := m, saved := false }) ∧
    (key ∈ prefKeys →
      (set_preference m key v).ok = true ∧
      (set_preference m key v).saved = true ∧
      getPref (set_preference m key v).memory key = some v ∧
      (∀ k, k ≠ key →
        getPref (set_preference m key v).memory k = getPref m k) ∧
      (set_preference m key v).memory.facts = m.facts ∧
      (set_preference m key v).memory.user_id = m.user_id ∧
      (set_preference m key v).memory.conversation_count =
        m.conversation_count) := by
  have hany : m.preferences.any (fun p => p.1 == key) =
      prefKeys.any (fun x => x == key) := by
    rw [any_key_eq_keys_any, hk]
  constructor
  · intro hout
    have hfalse : m.preferences.any (fun p => p.1 == key) = false := by
      rw [hany, Bool.eq_false_iff]
      intro hc
      obtain ⟨x, hx, hb⟩ := List.any_eq_true.mp hc
      exact hout (eq_of_beq hb ▸ hx)
    rw [set_preference, if_neg (by rw [hfalse]; simp)]
  · intro hin
    have htrue : m.preferences.any (fun p => p.1 == key) = true := by
      rw [hany]
      exact List.any_eq_true.mpr ⟨key, hin, by simp⟩
    rw [set_preference, if_pos htrue]
    refine ⟨rfl, rfl, ?_, ?_, rfl, rfl, rfl⟩
    · exact lookup_replace_self m.preferences key v htrue
    · intro k hkne
      exact lookup_replace_other m.preferences key k v
        (fun hb => hkne (eq_of_beq hb))

/-- Claim C7 witness: on the default document, setting the unknown key
`"favorite_color"` fails and changes nothing, while setting
`"home_station"` succeeds. -/
theorem set_preference_known_keys_only_witness :
    (defaultMemory "u" "t").preferences.map (fun p => p.1) = prefKeys ∧
    set_preference (defaultMemory "u" "t") "favorite_color" (some "red") =
      { ok := false, memory := defaultMemory "u" "t", saved := false } ∧
    (set_preference (defaultMemory "u" "t") "home_station"
      (some "place-harsq")).ok = true :=
  ⟨by decide,
   (set_preference_known_keys_only (defaultMemory "u" "t") "favorite_color"
     (some "red") (by decide)).1 (by decide),
   ((set_preference_known_keys_only (defaultMemory "u" "t") "home_station"
     (some "place-harsq") (by decide)).2 (by decide)).1⟩

/-- Claim C8: `add_fact` is idempotent — the state after adding the same
exact string twice equals the state after the first call; and starting from
a document holding at most one copy of the fact (the data model keeps facts
deduplicated), the resulting facts list holds exactly one entry with that
text, after the first call and after the second alike. -/
theorem add_fact_idempotent (m : UserMemory) (fact : String) :
    (add_fact (add_fact m fact).memory fact).memory = (add_fact m fact).memory ∧
    (m.facts.count fact ≤ 1 →
      (add_fact m fact).memory.facts.count fact = 1 ∧
      (add_fact (add_fact m fact).memory fact).memory.facts.count fact = 1) := by
  by_cases hm : fact ∈ m.facts
  · have h1 : (add_fact m fact).memory = m := by
      rw [add_fact, if_pos hm]
    have h2 : (add_fact (add_fact m fact).memory fact).memory =
        (add_fact m fact).memory := by
      rw [h1]
      exact h1
    have hcount : m.facts.count fact ≤ 1 → m.facts.count fact = 1 := by
      intro hle
      exact Nat.le_antisymm hle (List.count_pos_iff.mpr hm)
    refine ⟨h2, fun hle => ?_⟩
    have hc1 : (add_fact m fact).memory.facts.count fact = 1 := by
      rw [h1]
      exact hcount hle
    exact ⟨hc1, by rw [h2]; exact hc1⟩
  · have h1 : (add_fact m fact).memory =
        { m with facts := m.facts ++ [fact] } := by
      rw [add_fact, if_neg hm]
    have hmem2 : fact ∈ (add_fact m fact).memory.facts := by
      rw [h1]
      exact List.mem_append_right _ (List.mem_singleton.mpr rfl)
    have h2 : (add_fact (add_fact m fact).memory fact).memory =
        (add_fact m fact).memory := by
      rw [add_fact, if_pos hmem2]
    refine ⟨h2, fun _ => ?_⟩
    have hc0 : m.facts.count fact = 0 := List.count_eq_zero.mpr hm
    have hc1 : (add_fact m fact).memory.facts.count fact = 1 := by
      rw [h1]
      show (m.facts ++ [fact]).count fact = 1
      rw [List.count_append, hc0]
      simp
    exact ⟨hc1, by rw [h2]; exact hc1⟩

/-- Claim C8 witness: concrete double insertion into an empty fact list. -/
theorem add_fact_idempotent_witness :
    (add_fact (add_fact (defaultMemory "u" "t") "住在 Cambridge").memory
        "住在 Cambridge").memory =
      (add_fact (defaultMemory "u" "t") "住在 Cambridge").memory ∧
    (add_fact (defaultMemory "u" "t") "住在 Cambridge").memory.facts.count
      "住在 Cambridge" = 1 :=
  ⟨(add_fact_idempotent (defaultMemory "u" "t") "住在 Cambridge").1,
   ((add_fact_idempotent (defaultMemory "u" "t") "住在 Cambridge").2
     (by decide)).1⟩

/-- Claim C3 (amended): for every tool-call request whose arguments string
parses as JSON, the dispatch step is total and contained — an unregistered
name yields a structured error payload carrying the literal tool name, an
exception raised by the invoked function yields a structured error payload
with its message, the payload is appended to the transcript as the `tool`
message, and a scripted conversation whose calls all carry parseable
arguments never crashes.  (A request whose arguments string is not valid
JSON raises from `json.loads` at `src/agent.py` line 325, outside the
`try` of `_call_tool`, so the original claim fails for it.) -/
theorem dispatch_error_containment :
    (∀ (reg : Registry) (name : String) (args : Args),
      reg.find? (fun p => p.1 == name) = none →
        callTool reg name args = [("error", JVal.s ("未知工具: " ++ name))] ∧
        pyIn name ("未知工具: " ++ name) = true) ∧
    (∀ (reg : Registry) (name : String) (args : Args)
        (pr : String × ToolFn) (e : String),
      reg.find? (fun p => p.1 == name) = some pr → pr.2 args = Except.error e →
        callTool reg name args = [("error", JVal.s e)]) ∧
    (∀ (reg : Registry) (c : ToolCall) (msgs : List Msg) (args : Args),
      c.arguments = some args →
        processCalls reg [c] msgs =
          Except.ok (msgs ++ [Msg.tool c.id (callTool reg c.name args)], 1)) ∧
    (∀ (reg : Registry) (script : List ModelResponse) (msgs : List Msg) (n : Nat),
      (∀ r ∈ script, ∀ c ∈ r.tool_calls, c.arguments.isSome = true) →
      (∃ r ∈ script, r.tool_calls = []) →
      ∃ out, chatLoop reg script msgs n = Except.ok out) := by
  refine ⟨?_, ?_, ?_, chatLoop_no_crash⟩
  · intro reg name args hfind
    refine ⟨?_, pyIn_append_self "未知工具: " name⟩
    rw [callTool, hfind]
    rfl
  · intro reg name args pr e hfind herr
    obtain ⟨nm, f⟩ := pr
    have herr2 : f args = Except.error e := herr
    rw [callTool, hfind]
    show (match f args with
          | Except.ok d => d
          | Except.error e => [("error", JVal.s e)]) = [("error", JVal.s e)]
    rw [herr2]
  · intro reg c msgs args ha
    rw [processCalls, ha]
    rfl

/-- Claim C3 (amended) witness: dispatching the unregistered name `"foo"`
through the demo registry returns the structured error payload containing
`"foo"`, and a one-call scripted conversation with parseable arguments
completes without raising. -/
theorem dispatch_error_containment_witness :
    callTool demoRegistry "foo" [] = [("error", JVal.s "未知工具: foo")] ∧
    pyIn "foo" "未知工具: foo" = true ∧
    ∃ out, chatLoop demoRegistry
      [{ content := "", tool_calls := [demoParsedCall] },
       { content := "好的", tool_calls := [] }] [] 0 = Except.ok out :=
  ⟨(dispatch_error_containment.1 demoRegistry "foo" [] rfl).1,
   (dispatch_error_containment.1 demoRegistry "foo" [] rfl).2,
   dispatch_error_containment.2.2.2 demoRegistry
     [{ content := "", tool_calls := [demoParsedCall] },
      { content := "好的", tool_calls := [] }] [] 0
     (by decide)
     ⟨{ content := "好的", tool_calls := [] }, by simp, rfl⟩⟩

/-- Claim C3 counterexample: a tool call whose arguments string is not valid
JSON makes `json.loads` raise inside the loop (`src/agent.py` line 325 has
no surrounding `try`), so the chat turn aborts with an exception instead of
a structured error payload — the dispatch containment does not cover
malformed argument strings. -/
theorem dispatch_malformed_arguments_crash :
    chat demoRegistry [] (defaultMemory "u" "t") "你好"
        [{ content := "", tool_calls := [demoMalformedCall] }] =
      Except.error "json.loads: tool_call.function.arguments 不是合法 JSON" := by
  rfl

/-- Claim C4: when the model responds with [tool-call, tool-call,
final-text], the chat turn performs exactly two tool dispatches, in the
order the model emitted them, before returning the final text, and beyond
the echoed user message the transcript grows by exactly
2 × (assistant + tool) + 1 final assistant = 5 messages. -/
theorem two_tool_calls_transcript_growth (reg : Registry) (msgs : List Msg)
    (memory : UserMemory) (u s1 s2 txt : String) (c1 c2 : ToolCall)
    (a1 a2 : Args) (h1 : c1.arguments = some a1) (h2 : c2.arguments = some a2) :
    chat reg msgs memory u
        [{ content := s1, tool_calls := [c1] },
         { content := s2, tool_calls := [c2] },
         { content := txt, tool_calls := [] }] =
      Except.ok
        (msgs ++ [Msg.user u, Msg.assistantCalls [c1],
           Msg.tool c1.id (callTool reg c1.name a1), Msg.assistantCalls [c2],
           Msg.tool c2.id (callTool reg c2.name a2), Msg.assistantText txt],
         txt, 2,
         { memory with conversation_count := memory.conversation_count + 1 }) ∧
    (msgs ++ [Msg.user u, Msg.assistantCalls [c1],
       Msg.tool c1.id (callTool reg c1.name a1), Msg.assistantCalls [c2],
       Msg.tool c2.id (callTool reg c2.name a2),
       Msg.assistantText txt]).length = (msgs ++ [Msg.user u]).length + 5 := by
  have step : ∀ (c : ToolCall) (a : Args), c.arguments = some a →
      ∀ (s : String) (rest : List ModelResponse) (ms : List Msg) (n : Nat),
      chatLoop reg ({ content := s, tool_calls := [c] } :: rest) ms n =
        chatLoop reg rest
          (ms ++ [Msg.assistantCalls [c], Msg.tool c.id (callTool reg c.name a)])
          (n + 1) := by
    intro c a ha s rest ms n
    have hp : processCalls reg [c] (ms ++ [Msg.assistantCalls [c]]) =
        Except.ok ((ms ++ [Msg.assistantCalls [c]]) ++
          [Msg.tool c.id (callTool reg c.name a)], 1) := by
      rw [processCalls, ha]
      rfl
    simp only [chatLoop, List.isEmpty_cons, Bool.false_eq_true, if_false, hp,
      List.append_assoc, List.cons_append, List.nil_append]
  constructor
  · have hloop : chatLoop reg
        [{ content := s1, tool_calls := [c1] },
         { content := s2, tool_calls := [c2] },
         { content := txt, tool_calls := [] }]
        (msgs ++ [Msg.user u]) 0 =
        Except.ok
          (msgs ++ [Msg.user u, Msg.assistantCalls [c1],
             Msg.tool c1.id (callTool reg c1.name a1), Msg.assistantCalls [c2],
             Msg.tool c2.id (callTool reg c2.name a2), Msg.assistantText txt],
           txt, 2) := by
      rw [step c1 a1 h1 s1, step c2 a2 h2 s2]
      simp [chatLoop]
    simp only [chat, hloop]
  · simp only [List.length_append, List.length_cons, List.length_nil]

/-- Claim C4 witness: concrete two-call script through the demo registry. -/
theorem two_tool_calls_transcript_growth_witness :
    chat demoRegistry [] (defaultMemory "u" "t") "下一班车?"
        [{ content := "", tool_calls := [demoParsedCall] },
         { content := "", tool_calls := [demoParsedCall] },
         { content := "马上到", tool_calls := [] }] =
      Except.ok
        ([] ++ [Msg.user "下一班车?", Msg.assistantCalls [demoParsedCall],
           Msg.tool demoParsedCall.id
             (callTool demoRegistry demoParsedCall.name []),
           Msg.assistantCalls [demoParsedCall],
           Msg.tool demoParsedCall.id
             (callTool demoRegistry demoParsedCall.name []),
           Msg.assistantText "马上到"],
         "马上到", 2,
         { defaultMemory "u" "t" with conversation_count :=
             (defaultMemory "u" "t").conversation_count + 1 }) :=
  (two_tool_calls_transcript_growth demoRegistry [] (defaultMemory "u" "t")
    "下一班车?" "" "" "马上到" demoParsedCall demoParsedCall [] [] rfl rfl).1
